import Mathlib

/-!
Verification development for the bvbrc-workflow-engine repository.

The definitions below are shallow embeddings of the Python source under
src/: JSON documents become an inductive value type, the pydantic models
become parsers, the compile pipeline and the executor logic become pure
Lean functions, and the persisted MongoDB state becomes an explicit state
type with the typed mutators of src/core/state_manager.py.
-/

namespace Bvbrc

/-- JSON-like values, the dynamic data the Python code manipulates.
Numbers are modelled as integers; no claim exercises float coercion. -/
inductive Json where
  | null : Json
  | str : String → Json
  | num : Int → Json
  | bool : Bool → Json
  | arr : List Json → Json
  | obj : List (String × Json) → Json

namespace Json

/-- Keys of a JSON object field list (Python dict keys). -/
def keysOf (kvs : List (String × Json)) : List String := kvs.map (·.1)

/-- Python dict lookup: first binding wins (dict keys are unique in
practice, so taking the first binding is faithful). -/
def lookupKey (kvs : List (String × Json)) (k : String) : Option Json :=
  match kvs with
  | [] => none
  | (k', v) :: rest => if k' = k then some v else lookupKey rest k

/-- Python `key in dict`. -/
def hasKey (kvs : List (String × Json)) (k : String) : Bool :=
  match kvs with
  | [] => false
  | (k', _) :: rest => k' = k || hasKey rest k

/-- Python `dict.pop(k, None)`: remove every binding of the key. -/
def removeKey (kvs : List (String × Json)) (k : String) : List (String × Json) :=
  kvs.filter (fun kv => kv.1 ≠ k)

/-- Python `d[k] = v`: replace the binding if present, else append. -/
def setKey (kvs : List (String × Json)) (k : String) (v : Json) : List (String × Json) :=
  if hasKey kvs k then
    kvs.map (fun kv => if kv.1 = k then (k, v) else kv)
  else
    kvs ++ [(k, v)]

/-- Python truthiness test `value in (None, "", [])`, used by the
conditional-required rules of src/core/field_coercion_registry.py. -/
def isEmptyish : Json → Bool
  | .null => true
  | .str s => s = ""
  | .arr xs => xs.isEmpty
  | _ => false

end Json

/-- Result check for the Except-valued pipeline stages. -/
def exceptOk {ε α : Type} : Except ε α → Bool
  | .ok _ => true
  | .error _ => false

/-! ## Structural string primitives

The Python sources use str.replace, str.split, str.strip, str.lower,
str.startswith, str.endswith, slicing and int(); these are embedded with
the structural character-list scanners below so every pipeline stage
evaluates by computation. -/

/-- Character-list head test behind the string helpers below. -/
def charsStartsWith : List Char → List Char → Bool
  | [], _ => true
  | _ :: _, [] => false
  | c :: cs, d :: ds => c = d && charsStartsWith cs ds

/-- Embeds str.startswith. -/
def pyStartsWith (s pre : String) : Bool :=
  charsStartsWith pre.toList s.toList

/-- Embeds str.endswith. -/
def pyEndsWith (s post : String) : Bool :=
  charsStartsWith post.toList.reverse s.toList.reverse

/-- Embeds the slice s[n:]. -/
def pyDrop (s : String) (n : Nat) : String :=
  String.mk (s.toList.drop n)

/-- Embeds str.lower. -/
def pyToLower (s : String) : String :=
  String.mk (s.toList.map Char.toLower)

/-- Embeds str.strip: whitespace removed from both ends. -/
def pyTrim (s : String) : String :=
  String.mk (((s.toList.dropWhile Char.isWhitespace).reverse.dropWhile Char.isWhitespace).reverse)

/-- Fuel-based scanner behind pyReplace; the pattern is nonempty so each
call consumes at least one character of input. -/
def pyReplaceAux (pat rep : List Char) : Nat → List Char → List Char
  | 0, cs => cs
  | _, [] => []
  | fuel + 1, c :: cs =>
      if charsStartsWith pat (c :: cs) then
        rep ++ pyReplaceAux pat rep fuel ((c :: cs).drop pat.length)
      else
        c :: pyReplaceAux pat rep fuel cs

/-- Embeds str.replace: every leftmost non-overlapping occurrence of pat
is replaced; an empty pattern leaves the string unchanged. -/
def pyReplace (s pat rep : String) : String :=
  if pat = "" then s
  else String.mk (pyReplaceAux pat.toList rep.toList (s.length + 1) s.toList)

/-- Fuel-based scanner behind pySplitOn. -/
def pySplitOnAux (sep : List Char) : Nat → List Char → List Char → List String
  | 0, acc, cs => [String.mk (acc.reverse ++ cs)]
  | _, acc, [] => [String.mk acc.reverse]
  | fuel + 1, acc, c :: cs =>
      if charsStartsWith sep (c :: cs) then
        String.mk acc.reverse :: pySplitOnAux sep fuel [] ((c :: cs).drop sep.length)
      else
        pySplitOnAux sep fuel (c :: acc) cs

/-- Embeds str.split(sep): split on the exact separator, leftmost
non-overlapping. -/
def pySplitOn (s sep : String) : List String :=
  if sep = "" then [s]
  else pySplitOnAux sep.toList (s.length + 1) [] s.toList

/-- Digits-only numeral reader behind pyToNat and pyToInt. -/
def pyDigitsAux : List Char → Nat → Option Nat
  | [], n => some n
  | c :: rest, n =>
      if c.isDigit then pyDigitsAux rest (n * 10 + (c.toNat - Char.toNat '0'))
      else none

/-- Embeds int(s) for non-negative inputs: a nonempty run of digits. -/
def pyToNat (s : String) : Option Nat :=
  match s.toList with
  | [] => none
  | cs => pyDigitsAux cs 0

/-- Embeds int(s): an optional leading minus sign followed by a nonempty
run of digits. -/
def pyToInt (s : String) : Option Int :=
  match s.toList with
  | '-' :: rest =>
      match pyDigitsAux rest 0 with
      | some v => if rest.isEmpty then none else some (-(Int.ofNat v))
      | none => none
  | _ => (pyToNat s).map Int.ofNat

/-! ## src/api/routes.py : cancel_workflow (lines 462-519)

The handler loads the workflow, returns HTTP 400 without touching the
document when the status is terminal, and otherwise persists
status := cancelled. The embedding keeps the persisted status and the
response outcome. -/

/-- Terminal workflow statuses checked by cancel_workflow. -/
def cancelTerminalStatuses : List String := ["succeeded", "failed", "cancelled"]

/-- Embeds cancel_workflow: on a terminal status the handler raises
HTTP 400 and performs no write; otherwise it writes status=cancelled
and answers with the new status. The first component is the response
(ok carries the reported status), the second the persisted status. -/
def cancelWorkflow (status : String) : Except String String × String :=
  if status ∈ cancelTerminalStatuses then
    (.error ("Cannot cancel workflow with status " ++ status), status)
  else
    (.ok "cancelled", "cancelled")

/-- Persisted workflow status after a cancel request. -/
def statusAfterCancel (status : String) : String := (cancelWorkflow status).2

/-! ## src/core/dag_analyzer.py : terminal predicates (lines 142-199) -/

/-- Step statuses considered terminal by is_workflow_complete. -/
def stepTerminalStatuses : List String := ["succeeded", "failed", "upstream_failed", "skipped"]

/-- Embeds DAGAnalyzer.is_workflow_complete over the list of node
statuses: every step status is terminal. -/
def isWorkflowComplete (statuses : List String) : Bool :=
  statuses.all (fun s => s ∈ stepTerminalStatuses)

/-- Embeds DAGAnalyzer.has_workflow_failed: some step has status failed. -/
def hasWorkflowFailed (statuses : List String) : Bool :=
  statuses.any (fun s => s = "failed")

/-- Embeds DAGAnalyzer.has_workflow_succeeded: every step has status
succeeded. -/
def hasWorkflowSucceeded (statuses : List String) : Bool :=
  statuses.all (fun s => s = "succeeded")

/-! ## src/executor/workflow_executor.py : process_workflow (lines 248-300)

The per-tick decision about the workflow-level status. The function
returns the terminal status written by handle_workflow_completion during
this tick, or none when the tick retires nothing (cancelled workflows are
only dropped from the active set; queued-to-running is not terminal). -/

/-- Embeds the retirement decision of process_workflow: cancelled
workflows are dropped with no status write; complete workflows retire to
succeeded (all steps succeeded) or failed (some step failed); otherwise
any failed step retires the workflow to failed immediately unless the
stored status already is failed. -/
def processWorkflowDecision (stepStatuses : List String) (wfStatus : String) : Option String :=
  if wfStatus = "cancelled" then none
  else if isWorkflowComplete stepStatuses then
    if hasWorkflowSucceeded stepStatuses then some "succeeded"
    else if hasWorkflowFailed stepStatuses then some "failed"
    else none
  else if hasWorkflowFailed stepStatuses && wfStatus ≠ "failed" then some "failed"
  else none

/-! ## src/executor/workflow_context.py : capacity accounting (lines 112-134)
and the submission loop of src/executor/workflow_executor.py (lines 361-397). -/

/-- In-memory execution context fields used by the submission loop:
the set of running step names and the per-workflow parallelism cap. -/
structure ExecCtx where
  runningSteps : Finset String
  maxParallelSteps : Nat
deriving DecidableEq

/-- Embeds WorkflowExecutionContext.get_capacity:
max(0, max_parallel_steps - len(running_steps)), via Nat subtraction. -/
def getCapacity (ctx : ExecCtx) : Nat :=
  ctx.maxParallelSteps - ctx.runningSteps.card

/-- Embeds WorkflowExecutionContext.can_submit_more_steps. -/
def canSubmitMoreSteps (ctx : ExecCtx) : Bool :=
  ctx.runningSteps.card < ctx.maxParallelSteps

/-- Embeds WorkflowExecutionContext.mark_step_running: add the step name
to the running set. -/
def markStepRunning (ctx : ExecCtx) (stepName : String) : ExecCtx :=
  { ctx with runningSteps := insert stepName ctx.runningSteps }

/-- Embeds submit_ready_steps: take at most capacity() entries from the
ready list and mark each submitted step running in the context (the DAG
node update that prevents re-selection is reflected by the insertion). -/
def submitReadySteps (ctx : ExecCtx) (readySteps : List String) : ExecCtx :=
  let capacity := getCapacity ctx
  if capacity = 0 then ctx
  else (readySteps.take capacity).foldl markStepRunning ctx

/-! ## src/core/state_manager.py : persisted execution state (lines 320-539)

The persisted workflow document, restricted to the fields invariant I4
speaks about: per-step name/status/step_id and
execution_metadata.currently_running_step_ids. The typed mutators below
embed the MongoDB updates issued by the executor and the CreateGroup
handler. -/

/-- A persisted step record: step_name, status and the scheduler-assigned
step_id (none until dispatch). -/
structure PStep where
  name : String
  status : String
  stepId : Option String
deriving Repr, DecidableEq

/-- The persisted state I4 constrains: the steps array and
execution_metadata.currently_running_step_ids. -/
structure PState where
  steps : List PStep
  runningIds : List String
deriving Repr, DecidableEq

/-- MongoDB addToSet: append the element unless already present. -/
def addToSet (x : String) (l : List String) : List String :=
  if x ∈ l then l else l ++ [x]

/-- MongoDB pull: remove every occurrence of the element. -/
def pullFromList (x : String) (l : List String) : List String :=
  l.filter (fun y => y ≠ x)

/-- MongoDB positional update: rewrite the first array element matching
the query predicate (update_step_by_name / update_step_fields). -/
def updateFirstBy (p : PStep → Prop) [DecidablePred p] (f : PStep → PStep) :
    List PStep → List PStep
  | [] => []
  | s :: rest => if p s then f s :: rest else s :: updateFirstBy p f rest

/-- The persisted-state writes the execution paths perform. submitSched is
submit_step in src/executor/workflow_executor.py lines 505-518:
update_step_by_name(... status=running, step_id, task_id) followed by
add_to_running_steps(step_id). completeSched / failSched are
handle_step_completion / handle_step_failure: update_step_fields by
step_id plus remove_from_running_steps. createGroupRun is
handle_create_group_step in src/executor/create_group_handler.py lines
87-111: update_step_by_name(... status=running, step_id) with NO
add_to_running_steps call; createGroupComplete / createGroupFail are its
completion paths (update_step_fields by step_id; the running-id set is
again untouched). -/
inductive ExecOp where
  | submitSched (stepName taskId : String)
  | completeSched (taskId : String)
  | failSched (taskId : String)
  | createGroupRun (stepName localId : String)
  | createGroupComplete (localId : String)
  | createGroupFail (localId : String)

/-- Applies one executor persistence action to the stored document. -/
def applyOp : ExecOp → PState → PState
  | .submitSched n tid, s =>
      { steps := updateFirstBy (fun st => st.name = n)
          (fun st => { st with status := "running", stepId := some tid }) s.steps,
        runningIds := addToSet tid s.runningIds }
  | .completeSched tid, s =>
      { steps := updateFirstBy (fun st => st.stepId = some tid)
          (fun st => { st with status := "succeeded" }) s.steps,
        runningIds := pullFromList tid s.runningIds }
  | .failSched tid, s =>
      { steps := updateFirstBy (fun st => st.stepId = some tid)
          (fun st => { st with status := "failed" }) s.steps,
        runningIds := pullFromList tid s.runningIds }
  | .createGroupRun n lid, s =>
      { steps := updateFirstBy (fun st => st.name = n)
          (fun st => { st with status := "running", stepId := some lid }) s.steps,
        runningIds := s.runningIds }
  | .createGroupComplete lid, s =>
      { steps := updateFirstBy (fun st => st.stepId = some lid)
          (fun st => { st with status := "succeeded" }) s.steps,
        runningIds := s.runningIds }
  | .createGroupFail lid, s =>
      { steps := updateFirstBy (fun st => st.stepId = some lid)
          (fun st => { st with status := "failed" }) s.steps,
        runningIds := s.runningIds }

/-- Membership of a step in currently_running_step_ids via its step_id. -/
def stepIdRunning (st : PStep) (running : List String) : Prop :=
  match st.stepId with
  | none => False
  | some tid => tid ∈ running

instance (st : PStep) (running : List String) : Decidable (stepIdRunning st running) :=
  match h : st.stepId with
  | none => isFalse (by simp [stepIdRunning, h])
  | some tid => decidable_of_iff (tid ∈ running) (by simp [stepIdRunning, h])

/-- Invariant I4: a step has status running iff its step_id is a member
of execution_metadata.currently_running_step_ids. -/
def RunningIff (s : PState) : Prop :=
  ∀ st ∈ s.steps, (st.status = "running" ↔ stepIdRunning st s.runningIds)

instance (s : PState) : Decidable (RunningIff s) :=
  decidable_of_iff (∀ st ∈ s.steps, (st.status = "running" ↔ stepIdRunning st s.runningIds))
    Iff.rfl

/-- Pairwise relation: distinct steps never share an assigned step_id. -/
def StepIdDistinct (a b : PStep) : Prop :=
  ∀ tid, a.stepId = some tid → b.stepId ≠ some tid

/-- Assigned step_ids are pairwise distinct across the steps array. -/
def UniqueStepIds (s : PState) : Prop :=
  s.steps.Pairwise StepIdDistinct

/-- The scheduler-generated task id of a submission is fresh: the
scheduler never reuses the id of a task already tracked. Create-group
operations are not scheduler-backed. -/
def SchedGuard : ExecOp → PState → Prop
  | .submitSched _ tid, s => tid ∉ s.runningIds ∧ ∀ st ∈ s.steps, st.stepId ≠ some tid
  | .completeSched _, _ => True
  | .failSched _, _ => True
  | _, _ => False

/-- States reachable from a base state by scheduler-backed persistence
actions only. -/
inductive SchedReachable : PState → PState → Prop where
  | refl (s : PState) : SchedReachable s s
  | step {s0 s : PState} (op : ExecOp) : SchedReachable s0 s → SchedGuard op s →
      SchedReachable s0 (applyOp op s)

/-- States reachable by any executor persistence action, the in-process
CreateGroup handler included (fresh local step id on its dispatch). -/
inductive ExecReachable : PState → PState → Prop where
  | refl (s : PState) : ExecReachable s s
  | sched {s0 s : PState} (op : ExecOp) : ExecReachable s0 s → SchedGuard op s →
      ExecReachable s0 (applyOp op s)
  | createGroupRun {s0 s : PState} (n lid : String) : ExecReachable s0 s →
      ExecReachable s0 (applyOp (.createGroupRun n lid) s)
  | createGroupDone {s0 s : PState} (lid : String) : ExecReachable s0 s →
      ExecReachable s0 (applyOp (.createGroupComplete lid) s)
  | createGroupFailed {s0 s : PState} (lid : String) : ExecReachable s0 s →
      ExecReachable s0 (applyOp (.createGroupFail lid) s)

/-- The persisted state submit_planned_workflow initializes: every step
pending with no step_id, currently_running_step_ids empty. -/
def FreshlySubmitted (s : PState) : Prop :=
  s.runningIds = [] ∧ ∀ st ∈ s.steps, st.status = "pending" ∧ st.stepId = none

instance (s : PState) : Decidable (FreshlySubmitted s) :=
  inferInstanceAs (Decidable (_ ∧ ∀ st ∈ s.steps, _ ∧ _))

/-- Concrete freshly submitted workflow with one CreateGroup step. -/
def cgInitState : PState :=
  { steps := [⟨"make_group", "pending", none⟩], runningIds := [] }

/-- The same workflow right after handle_create_group_step persisted
status=running for the step (no add_to_running_steps is issued). -/
def cgRunState : PState :=
  applyOp (.createGroupRun "make_group" "local_make_group_1700000000000_1234") cgInitState

/-! ## src/core/validator.py : _check_circular_dependencies (lines 225-268)

Depth-first search over the dependency graph built as
graph[step_name] = depends_on or []. The Python recursion is embedded
with a fuel argument large enough never to run out on the evaluated
inputs; visited and rec_stack are insertion-ordered sets. -/

/-- Dependency-graph entry per step: (step_name, depends_on or []). -/
def buildDepGraph (steps : List (String × List String)) : List (String × List String) :=
  steps.foldl
    (fun g s =>
      if g.any (fun kv => kv.1 = s.1) then
        g.map (fun kv => if kv.1 = s.1 then s else kv)
      else g ++ [s])
    []

/-- Python graph.get(node, []). -/
def graphNeighbors (graph : List (String × List String)) (node : String) : List String :=
  match graph.find? (fun kv => kv.1 = node) with
  | some kv => kv.2
  | none => []

/-- Python list.index for strings (total: callers only use it on members). -/
def pyIndexOf (x : String) : List String → Nat
  | [] => 0
  | y :: rest => if y = x then 0 else pyIndexOf x rest + 1

/-- The visited and rec_stack sets threaded through the DFS. -/
structure DfsSt where
  visited : List String
  recStack : List String
deriving Repr, DecidableEq

mutual

/-- One dfs(node, path) call of _check_circular_dependencies: mark the
node visited and on the recursion stack, append it to the path, walk its
neighbors, then remove it from the recursion stack. -/
def dfsVisit (graph : List (String × List String)) :
    Nat → String → List String → DfsSt → Except String DfsSt
  | 0, _, _, st => .ok st
  | fuel + 1, node, path, st =>
      let st1 : DfsSt := ⟨addToSet node st.visited, addToSet node st.recStack⟩
      let path1 := path ++ [node]
      match dfsVisit.neighborLoop graph fuel (graphNeighbors graph node) path1 st1 with
      | .error e => .error e
      | .ok st2 => .ok ⟨st2.visited, pullFromList node st2.recStack⟩

/-- The neighbor loop of dfs: recurse into unvisited neighbors, raise the
cycle error when a neighbor sits on the recursion stack, skip the rest. -/
def dfsVisit.neighborLoop (graph : List (String × List String)) :
    Nat → List String → List String → DfsSt → Except String DfsSt
  | 0, _, _, st => .ok st
  | _ + 1, [], _, st => .ok st
  | fuel + 1, nb :: rest, path, st =>
      if nb ∉ st.visited then
        match dfsVisit graph fuel nb path st with
        | .error e => .error e
        | .ok st' => dfsVisit.neighborLoop graph fuel rest path st'
      else if nb ∈ st.recStack then
        let cycleStart := pyIndexOf nb path
        let cycle := path.drop cycleStart ++ [nb]
        .error ("Circular dependency detected: " ++ String.intercalate " -> " cycle)
      else dfsVisit.neighborLoop graph fuel rest path st

end

/-- Fuel that the embedded DFS cannot exhaust: generous bound in the
graph size. -/
def dfsFuel (graph : List (String × List String)) : Nat :=
  (graph.length + (graph.map (fun kv => kv.2.length)).sum + 2) * 2

/-- Run dfs from every not-yet-visited node, in graph key order. -/
def dfsForest (graph : List (String × List String)) :
    List String → DfsSt → Except String DfsSt
  | [], st => .ok st
  | k :: rest, st =>
      if k ∉ st.visited then
        match dfsVisit graph (dfsFuel graph) k [] st with
        | .error e => .error e
        | .ok st' => dfsForest graph rest st'
      else dfsForest graph rest st

/-- Embeds WorkflowValidator._check_circular_dependencies over
(step_name, depends_on) pairs. -/
def checkCircularDependencies (steps : List (String × List String)) : Except String Unit :=
  let graph := buildDepGraph steps
  match dfsForest graph (graph.map (·.1)) ⟨[], []⟩ with
  | .error e => .error e
  | .ok _ => .ok ()

/-! ## src/models/workflow.py : pydantic schema models (lines 8-57)

WorkflowStep and WorkflowDefinition carry Config extra = "forbid": any
key outside the declared fields fails construction. BaseContext carries
extra = "allow". The models become parsers from JSON values; datetime
parsing is abstracted to accepting an ISO string (or null), which no
claim exercises. -/

/-- Declared fields of the WorkflowDefinition pydantic model. -/
def workflowTopLevelFields : List String :=
  ["workflow_name", "version", "base_context", "steps", "workflow_outputs"]

/-- Declared fields of the WorkflowStep pydantic model. -/
def workflowStepFields : List String :=
  ["step_name", "app", "params", "outputs", "depends_on", "step_id",
   "status", "task_id", "submitted_at", "started_at", "completed_at",
   "elapsed_time", "error_message"]

/-- Require a JSON string. -/
def Json.asString : Json → Except String String
  | .str s => .ok s
  | _ => .error "expected a string"

/-- Require a JSON string or null. -/
def Json.asOptString : Json → Except String (Option String)
  | .null => .ok none
  | .str s => .ok (some s)
  | _ => .error "expected a string or null"

/-- Require a JSON object and return its fields. -/
def Json.asObj : Json → Except String (List (String × Json))
  | .obj kvs => .ok kvs
  | _ => .error "expected an object"

/-- Require a JSON array. -/
def Json.asArr : Json → Except String (List Json)
  | .arr xs => .ok xs
  | _ => .error "expected an array"

/-- Require a JSON array of strings. -/
def Json.asStrList : Json → Except String (List String)
  | .arr xs => xs.mapM Json.asString
  | _ => .error "expected an array of strings"

/-- Require a JSON object whose values are all strings (Dict of str). -/
def Json.asStrMap : Json → Except String (List (String × String))
  | .obj kvs => kvs.mapM (fun kv => (Json.asString kv.2).map (fun s => (kv.1, s)))
  | _ => .error "expected an object of strings"

/-- Required-field lookup of a pydantic model. -/
def getReq (kvs : List (String × Json)) (k : String) : Except String Json :=
  match Json.lookupKey kvs k with
  | some v => .ok v
  | none => .error ("field required: " ++ k)

/-- BaseContext: base_url and workspace_output_folder required, arbitrary
extra keys allowed (Config extra = "allow"). -/
structure BaseContext where
  base_url : String
  workspace_output_folder : String
  extras : List (String × Json)

/-- WorkflowStep: the declared fields of the pydantic model; status
defaults to pending when the key is absent. -/
structure WorkflowStep where
  step_name : String
  app : String
  params : List (String × Json)
  outputs : Option (List (String × String)) := none
  depends_on : Option (List String) := none
  step_id : Option String := none
  status : Option String := some "pending"
  task_id : Option String := none
  submitted_at : Option String := none
  started_at : Option String := none
  completed_at : Option String := none
  elapsed_time : Option String := none
  error_message : Option String := none

/-- WorkflowDefinition: the input-format workflow document. -/
structure WorkflowDefinition where
  workflow_name : String
  version : String
  base_context : BaseContext
  steps : List WorkflowStep
  workflow_outputs : Option (List String) := none

/-- Optional field holding a string-valued map (step outputs). -/
def parseOptStrMap (kvs : List (String × Json)) (k : String) :
    Except String (Option (List (String × String))) :=
  match Json.lookupKey kvs k with
  | none => .ok none
  | some .null => .ok none
  | some v => (Json.asStrMap v).map some

/-- Optional field holding a string list (depends_on, workflow_outputs). -/
def parseOptStrList (kvs : List (String × Json)) (k : String) :
    Except String (Option (List String)) :=
  match Json.lookupKey kvs k with
  | none => .ok none
  | some .null => .ok none
  | some v => (Json.asStrList v).map some

/-- Optional string field with a default when the key is absent. -/
def parseOptStringD (kvs : List (String × Json)) (k : String)
    (dflt : Option String) : Except String (Option String) :=
  match Json.lookupKey kvs k with
  | none => .ok dflt
  | some v => v.asOptString

/-- Embeds the WorkflowStep pydantic model: Config extra = "forbid"
rejects every key outside the declared fields; step_name, app and params
are required; status defaults to pending. -/
def parseWorkflowStep (j : Json) : Except String WorkflowStep := do
  let kvs ← j.asObj
  let unknown := (Json.keysOf kvs).filter (fun k => k ∉ workflowStepFields)
  if unknown.isEmpty then
    let stepName ← (← getReq kvs "step_name").asString
    let app ← (← getReq kvs "app").asString
    let params ← (← getReq kvs "params").asObj
    let outputs ← parseOptStrMap kvs "outputs"
    let dependsOn ← parseOptStrList kvs "depends_on"
    let stepId ← parseOptStringD kvs "step_id" none
    let status ← parseOptStringD kvs "status" (some "pending")
    let taskId ← parseOptStringD kvs "task_id" none
    let submittedAt ← parseOptStringD kvs "submitted_at" none
    let startedAt ← parseOptStringD kvs "started_at" none
    let completedAt ← parseOptStringD kvs "completed_at" none
    let elapsedTime ← parseOptStringD kvs "elapsed_time" none
    let errorMessage ← parseOptStringD kvs "error_message" none
    .ok ⟨stepName, app, params, outputs, dependsOn, stepId, status, taskId,
      submittedAt, startedAt, completedAt, elapsedTime, errorMessage⟩
  else
    .error ("extra fields not permitted: " ++ String.intercalate ", " unknown)

/-- Embeds the BaseContext pydantic model: two required string fields,
extra keys kept (Config extra = "allow"). -/
def parseBaseContext (j : Json) : Except String BaseContext := do
  let kvs ← j.asObj
  let baseUrl ← (← getReq kvs "base_url").asString
  let wof ← (← getReq kvs "workspace_output_folder").asString
  .ok ⟨baseUrl, wof,
    Json.removeKey (Json.removeKey kvs "base_url") "workspace_output_folder"⟩

/-- Embeds the WorkflowDefinition pydantic model: Config extra = "forbid"
plus the steps-not-empty field validator. -/
def parseWorkflowDefinition (j : Json) : Except String WorkflowDefinition := do
  let kvs ← j.asObj
  let unknown := (Json.keysOf kvs).filter (fun k => k ∉ workflowTopLevelFields)
  if unknown.isEmpty then
    let wn ← (← getReq kvs "workflow_name").asString
    let ver ← (← getReq kvs "version").asString
    let bc ← parseBaseContext (← getReq kvs "base_context")
    let stepsJson ← getReq kvs "steps"
    let stepsList ← stepsJson.asArr
    let steps ← stepsList.mapM parseWorkflowStep
    if steps.isEmpty then
      .error "Workflow must contain at least one step"
    else
      let wo ← parseOptStrList kvs "workflow_outputs"
      .ok ⟨wn, ver, bc, steps, wo⟩
  else
    .error ("extra fields not permitted: " ++ String.intercalate ", " unknown)

/-! ## src/utils/variable_resolver.py : template scanning and passes

Strings are scanned for template tokens of the shape dollar-brace NAME
closing-brace. The embedding mirrors the two regular expressions
VAR_PATTERN (any non-brace content) and the simple-identifier pattern,
with a fuel argument bounding the left-to-right scan. -/

/-- Python truthiness of a JSON value. -/
def jsonTruthy : Json → Bool
  | .null => false
  | .str s => s ≠ ""
  | .num n => n ≠ 0
  | .bool b => b
  | .arr xs => ¬ xs.isEmpty
  | .obj kvs => ¬ kvs.isEmpty

/-- Python str() of a JSON value. List and dict rendering is outside the
modelled scope (no claim stringifies them). -/
def pyStr : Json → String
  | .str s => s
  | .num n => toString n
  | .bool b => if b then "True" else "False"
  | .null => "None"
  | .arr _ => "[...]"
  | .obj _ => "..."

/-- Python repr() of a JSON value, as used in error messages. -/
def pyRepr : Json → String
  | .str s => "'" ++ s ++ "'"
  | .num n => toString n
  | .bool b => if b then "True" else "False"
  | .null => "None"
  | .arr _ => "[...]"
  | .obj _ => "..."

/-- The template token for one variable name (dollar, brace, name,
closing brace). -/
def varToken (name : String) : String := "$" ++ "\x7b" ++ name ++ "\x7d"

/-- First character class of the identifier regular expressions. -/
def isIdentFirst (c : Char) : Bool := c.isAlpha || c = '_'

/-- Continuation character class of the identifier regular expressions. -/
def isIdentRest (c : Char) : Bool := c.isAlphanum || c = '_'

/-- Left-to-right scan of VAR_PATTERN: every token content (one or more
non-brace characters between the braces), in order of appearance. -/
def findVarRefsAux : Nat → List Char → List String
  | 0, _ => []
  | _, [] => []
  | fuel + 1, c :: rest =>
      if c = '$' then
        match rest with
        | '{' :: rest2 =>
            let content := rest2.takeWhile (fun ch => ch ≠ '}')
            match rest2.dropWhile (fun ch => ch ≠ '}') with
            | '}' :: rem2 =>
                if content.isEmpty then findVarRefsAux fuel rest
                else String.mk content :: findVarRefsAux fuel rem2
            | _ => findVarRefsAux fuel rest
        | _ => findVarRefsAux fuel rest
      else findVarRefsAux fuel rest

/-- All VAR_PATTERN matches of a string (re.findall). -/
def findVarRefs (s : String) : List String :=
  findVarRefsAux (s.length + 1) s.toList

/-- Full-string match of the simple-identifier pattern. -/
def isSimpleVarName (s : String) : Bool :=
  match s.toList with
  | [] => false
  | c :: rest => isIdentFirst c && rest.all isIdentRest

/-- Left-to-right scan of the identifier-only token pattern of
src/utils/output_file_checker.py (SIMPLE_VAR_PATTERN used with findall). -/
def findSimpleVarRefsAux : Nat → List Char → List String
  | 0, _ => []
  | _, [] => []
  | fuel + 1, c :: rest =>
      if c = '$' then
        match rest with
        | '{' :: rest2 =>
            let content := rest2.takeWhile isIdentRest
            match content with
            | [] => findSimpleVarRefsAux fuel rest
            | c0 :: _ =>
                if isIdentFirst c0 then
                  match rest2.dropWhile isIdentRest with
                  | '}' :: rem2 => String.mk content :: findSimpleVarRefsAux fuel rem2
                  | _ => findSimpleVarRefsAux fuel rest
                else findSimpleVarRefsAux fuel rest
        | _ => findSimpleVarRefsAux fuel rest
      else findSimpleVarRefsAux fuel rest

/-- All identifier-only token matches of a string. -/
def findSimpleVarRefs (s : String) : List String :=
  findSimpleVarRefsAux (s.length + 1) s.toList

/-- Pass-1 string resolution loop over the found tokens: skip complex
references, substitute from base_context, fall back to the environment,
error when unresolved (embeds _resolve_simple_variables_in_string). -/
def resolveSimpleLoop (vartable : List (String × Json)) (env : String → Option String)
    (ctx : String) : List String → String → Except String String
  | [], resolved => .ok resolved
  | name :: rest, resolved =>
      if ¬ isSimpleVarName name then resolveSimpleLoop vartable env ctx rest resolved
      else
        match Json.lookupKey vartable name with
        | some v =>
            resolveSimpleLoop vartable env ctx rest
              (pyReplace resolved (varToken name) (pyStr v))
        | none =>
            match env name with
            | some ev =>
                resolveSimpleLoop vartable env ctx rest
                  (pyReplace resolved (varToken name) ev)
            | none =>
                .error ("Cannot resolve variable '" ++ varToken name ++ "' in " ++ ctx ++
                  ". Variable not found in base_context or environment variables.")

/-- Embeds _resolve_simple_variables_in_string. -/
def resolveSimpleVariablesInString (vartable : List (String × Json))
    (env : String → Option String) (value : String) (ctx : String) :
    Except String String :=
  resolveSimpleLoop vartable env ctx (findVarRefs value) value

mutual

/-- Embeds _resolve_simple_variables_recursive: walk the document,
resolving strings and skipping any base_context key. -/
def resolveSimpleRec (vartable : List (String × Json)) (env : String → Option String) :
    Json → String → Except String Json
  | .str s, ctx => (resolveSimpleVariablesInString vartable env s ctx).map .str
  | .obj kvs, ctx => (resolveSimpleRecObj vartable env kvs ctx).map .obj
  | .arr xs, ctx => (resolveSimpleRecArr vartable env xs ctx 0).map .arr
  | v, _ => .ok v

/-- Object branch of the pass-1 recursion (base_context is skipped). -/
def resolveSimpleRecObj (vartable : List (String × Json)) (env : String → Option String) :
    List (String × Json) → String → Except String (List (String × Json))
  | [], _ => .ok []
  | (k, v) :: rest, ctx =>
      if k = "base_context" then
        (resolveSimpleRecObj vartable env rest ctx).map (fun r => (k, v) :: r)
      else
        match resolveSimpleRec vartable env v
            (if ctx = "" then k else ctx ++ "." ++ k) with
        | .error e => .error e
        | .ok v' => (resolveSimpleRecObj vartable env rest ctx).map (fun r => (k, v') :: r)

/-- Array branch of the pass-1 recursion. -/
def resolveSimpleRecArr (vartable : List (String × Json)) (env : String → Option String) :
    List Json → String → Nat → Except String (List Json)
  | [], _, _ => .ok []
  | v :: rest, ctx, i =>
      match resolveSimpleRec vartable env v
          ((if ctx = "" then "" else ctx) ++ "[" ++ toString i ++ "]") with
      | .error e => .error e
      | .ok v' => (resolveSimpleRecArr vartable env rest ctx (i + 1)).map (fun r => v' :: r)

end

/-- Pass 1 (embeds _resolve_base_context_variables): collect base_context
entries as the variable table and resolve the whole document. -/
def resolveBaseContextPass (env : String → Option String) (wf : Json) :
    Except String Json :=
  match wf with
  | .obj kvs =>
      let vartable := match Json.lookupKey kvs "base_context" with
        | some (.obj b) => b
        | _ => []
      resolveSimpleRec vartable env (.obj kvs) "workflow"
  | other => .ok other

/-- Pass-2 string resolution (embeds _resolve_params_in_string): tokens
beginning with params-dot are substituted from the step's own params,
erroring when the parameter is unknown; other tokens are left alone. -/
def resolveParamsLoop (params : List (String × Json)) (ctx : String) :
    List String → String → Except String String
  | [], resolved => .ok resolved
  | name :: rest, resolved =>
      if pyStartsWith name "params." then
        let paramName := pyDrop name 7
        match Json.lookupKey params paramName with
        | some v =>
            resolveParamsLoop params ctx rest
              (pyReplace resolved (varToken name) (pyStr v))
        | none =>
            .error ("Cannot resolve params reference '" ++ varToken name ++ "' in " ++ ctx ++
              ". Parameter '" ++ paramName ++ "' not found in step params.")
      else resolveParamsLoop params ctx rest resolved

/-- Embeds _resolve_params_in_string. -/
def resolveParamsInString (params : List (String × Json)) (value : String) (ctx : String) :
    Except String String :=
  resolveParamsLoop params ctx (findVarRefs value) value

mutual

/-- Embeds _resolve_params_in_dict: recursive params-reference resolution
over a value. -/
def resolveParamsRec (params : List (String × Json)) :
    Json → String → Except String Json
  | .str s, ctx => (resolveParamsInString params s ctx).map .str
  | .obj kvs, ctx => (resolveParamsRecObj params kvs ctx).map .obj
  | .arr xs, ctx => (resolveParamsRecArr params xs ctx 0).map .arr
  | v, _ => .ok v

/-- Object branch of the pass-2 recursion. -/
def resolveParamsRecObj (params : List (String × Json)) :
    List (String × Json) → String → Except String (List (String × Json))
  | [], _ => .ok []
  | (k, v) :: rest, ctx =>
      match resolveParamsRec params v (ctx ++ "." ++ k) with
      | .error e => .error e
      | .ok v' => (resolveParamsRecObj params rest ctx).map (fun r => (k, v') :: r)

/-- Array branch of the pass-2 recursion. -/
def resolveParamsRecArr (params : List (String × Json)) :
    List Json → String → Nat → Except String (List Json)
  | [], _, _ => .ok []
  | v :: rest, ctx, i =>
      match resolveParamsRec params v (ctx ++ "[" ++ toString i ++ "]") with
      | .error e => .error e
      | .ok v' => (resolveParamsRecArr params rest ctx (i + 1)).map (fun r => v' :: r)

end

/-- Pass 2 (embeds _resolve_params_references): for every step, resolve
params-references inside its outputs only. -/
def resolveParamsPassStep (stepJson : Json) : Except String Json :=
  match stepJson with
  | .obj st =>
      let params := match Json.lookupKey st "params" with
        | some (.obj p) => p
        | _ => []
      let outputs := (Json.lookupKey st "outputs").getD (.obj [])
      if jsonTruthy outputs then
        match resolveParamsRec params outputs "step outputs" with
        | .error e => .error e
        | .ok o' => .ok (.obj (Json.setKey st "outputs" o'))
      else .ok (.obj st)
  | other => .ok other

/-- Pass 2 over the whole document. -/
def resolveParamsPass (wf : Json) : Except String Json :=
  match wf with
  | .obj kvs =>
      match Json.lookupKey kvs "steps" with
      | some (.arr steps) =>
          match steps.mapM resolveParamsPassStep with
          | .error e => .error e
          | .ok steps' => .ok (.obj (Json.setKey kvs "steps" (.arr steps')))
      | _ => .ok (.obj kvs)
  | other => .ok other

/-- Head of a step-output reference token (dollar, brace, steps-dot). -/
def stepsRefHead : String := "$" ++ "\x7b" ++ "steps."

/-- Strip an expected literal character sequence. -/
def stripLit : List Char → List Char → Option (List Char)
  | [], rest => some rest
  | c :: cs, d :: rest => if c = d then stripLit cs rest else none
  | _ :: _, [] => none

/-- Full-string match of STEP_OUTPUT_PATTERN: exactly
dollar-brace steps.NAME.outputs.OUT closing-brace with identifier NAME
and OUT; returns (NAME, OUT). -/
def matchStepOutputRef (s : String) : Option (String × String) :=
  if pyStartsWith s stepsRefHead then
    let rest := (pyDrop s stepsRefHead.length).toList
    let n := rest.takeWhile isIdentRest
    let rest2 := rest.dropWhile isIdentRest
    match n with
    | [] => none
    | c :: _ =>
        if isIdentFirst c then
          match stripLit ".outputs.".toList rest2 with
          | none => none
          | some rest3 =>
              let o := rest3.takeWhile isIdentRest
              match o, rest3.dropWhile isIdentRest with
              | [], _ => none
              | c2 :: _, ['}'] =>
                  if isIdentFirst c2 then some (String.mk n, String.mk o) else none
              | _, _ => none
        else none
  else none

/-- Step-outputs lookup table of pass 3: step_name to raw outputs value,
later duplicates overriding earlier ones (Python dict assignment). -/
def buildStepOutputsMap (steps : List Json) : List (String × Json) :=
  steps.foldl
    (fun m stepJson =>
      match stepJson with
      | .obj st =>
          match Json.lookupKey st "step_name" with
          | some (.str name) =>
              if name ≠ "" then
                Json.setKey m name ((Json.lookupKey st "outputs").getD (.obj []))
              else m
          | _ => m
      | _ => m)
    []

/-- Embeds _resolve_step_output_ref: substitute an exact step-output
reference from the table, erroring when the step or the output key is
missing; non-references pass through. -/
def resolveStepOutputRef (stepOutputsMap : List (String × Json)) (value : Json)
    (ctx : String) : Except String Json :=
  match value with
  | .str s =>
      match matchStepOutputRef s with
      | some (stepName, outputName) =>
          match Json.lookupKey stepOutputsMap stepName with
          | none =>
              .error ("Cannot resolve step reference '" ++ varToken s ++ "' in " ++ ctx ++
                ". Step '" ++ stepName ++ "' not found.")
          | some (.obj outs) =>
              match Json.lookupKey outs outputName with
              | none =>
                  .error ("Cannot resolve step reference '" ++ varToken s ++ "' in " ++ ctx ++
                    ". Output '" ++ outputName ++ "' not found in step '" ++ stepName ++
                    "' outputs.")
              | some v => .ok v
          | some _ => .error ("unsupported outputs value for step '" ++ stepName ++ "'")
      | none => .ok (.str s)
  | v => .ok v

/-- The indexed loop of pass 3 over workflow_outputs. -/
def resolveWoLoop (stepOutputsMap : List (String × Json)) :
    Nat → List Json → Except String (List Json)
  | _, [] => .ok []
  | i, v :: rest =>
      match resolveStepOutputRef stepOutputsMap v
          ("workflow_outputs[" ++ toString i ++ "]") with
      | .error e => .error e
      | .ok v' => (resolveWoLoop stepOutputsMap (i + 1) rest).map (fun r => v' :: r)

/-- Pass 3 over an object document (embeds
_resolve_step_output_references). -/
def resolveStepOutputsPass (kvs : List (String × Json)) :
    Except String (List (String × Json)) :=
  let steps := match Json.lookupKey kvs "steps" with
    | some (.arr xs) => xs
    | _ => []
  let stepOutputsMap := buildStepOutputsMap steps
  match Json.lookupKey kvs "workflow_outputs" with
  | some (.arr wo) =>
      if wo.isEmpty then .ok kvs
      else
        match resolveWoLoop stepOutputsMap 0 wo with
        | .error e => .error e
        | .ok wo' => .ok (Json.setKey kvs "workflow_outputs" (.arr wo'))
  | _ => .ok kvs

/-- Pass 3 lifted to a JSON document. -/
def resolveStepOutputsPassJ (wf : Json) : Except String Json :=
  match wf with
  | .obj kvs => (resolveStepOutputsPass kvs).map .obj
  | other => .ok other

/-- Embeds VariableResolver.resolve_workflow_variables: the three passes
in order over a (deep copy of the) document. -/
def resolveWorkflowVariables (env : String → Option String) (wf : Json) :
    Except String Json := do
  let w1 ← resolveBaseContextPass env wf
  let w2 ← resolveParamsPass w1
  resolveStepOutputsPassJ w2

/-! ## src/core/field_coercion_registry.py : table-driven coercion and
conditional-required validation

The coercer lambdas of the tables become a small inductive; numbers are
integers (float coercion of dotted or exponent literals is left
unchanged, which no claim exercises). -/

/-- Embeds _normalize_service_name: lowercase, then strip every
non-alphanumeric character. -/
def normalizeServiceName (serviceName : String) : String :=
  String.mk ((pyToLower serviceName).toList.filter (fun c =>
    (c.isLower && c.isAlpha) || c.isDigit))

/-- Embeds _coerce_to_list. -/
def coerceToList : Json → Json
  | .arr xs => .arr xs
  | .null => .arr []
  | v => .arr [v]

/-- Embeds _coerce_to_number for the integer fragment: an integer-looking
string parses to a number; dotted or exponent strings (floats) and
unparseable strings stay unchanged. -/
def coerceToNumber : Json → Json
  | .num n => .num n
  | .str s =>
      if ¬ (s.toList.contains '.') && ¬ ((pyToLower s).toList.contains 'e') then
        match pyToInt s with
        | some n => .num n
        | none => .str s
      else .str s
  | v => v

/-- Embeds _coerce_to_bool. -/
def coerceToBool : Json → Json
  | .bool b => .bool b
  | .str s => .bool (pyToLower s ∈ ["true", "yes", "1", "on"])
  | v => .bool (jsonTruthy v)

/-- Python int() after _coerce_to_number (unchanged when the number
coercion failed, mirroring the caught int() exception). -/
def coerceIntOfNumber (v : Json) : Json :=
  match coerceToNumber v with
  | .num n => .num n
  | w => w

/-- The coercer functions appearing in the tables. -/
inductive Coercer where
  | toList
  | toNumber
  | toBool
  | toIntIfTruthy
  | toIntIfNotEmptyish

/-- Apply one coercer the way the table lambdas do. -/
def applyCoercer : Coercer → Json → Json
  | .toList, v => coerceToList v
  | .toNumber, v => coerceToNumber v
  | .toBool, v => coerceToBool v
  | .toIntIfTruthy, v => if jsonTruthy v then coerceIntOfNumber v else v
  | .toIntIfNotEmptyish, v => if Json.isEmptyish v then v else coerceIntOfNumber v

/-- SERVICE_FIELD_RULES keyed by normalized service name. -/
def serviceFieldRules : List (String × List (String × Coercer)) :=
  [("homology",
    [("input_id_list", .toList), ("db_id_list", .toList), ("db_genome_list", .toList),
     ("db_taxon_list", .toList), ("blast_evalue_cutoff", .toNumber),
     ("blast_max_hits", .toIntIfTruthy)]),
   ("blast",
    [("input_id_list", .toList), ("db_id_list", .toList), ("db_genome_list", .toList),
     ("db_taxon_list", .toList), ("blast_evalue_cutoff", .toNumber),
     ("blast_max_hits", .toIntIfTruthy)]),
   ("taxonomicclassification",
    [("paired_end_libs", .toList), ("single_end_libs", .toList), ("srr_libs", .toList),
     ("confidence_interval", .toNumber)]),
   ("genomeassembly2",
    [("paired_end_libs", .toList), ("single_end_libs", .toList), ("srr_ids", .toList),
     ("racon_iter", .toIntIfTruthy), ("pilon_iter", .toIntIfTruthy),
     ("min_contig_len", .toIntIfTruthy), ("min_contig_cov", .toIntIfTruthy)]),
   ("codontree",
    [("genome_ids", .toList), ("genome_groups", .toList), ("optional_genome_ids", .toList)]),
   ("rnaseq",
    [("paired_end_libs", .toList), ("single_end_libs", .toList), ("srr_libs", .toList),
     ("strand_specific", .toBool), ("trimming", .toBool)]),
   ("variation",
    [("paired_end_libs", .toList), ("single_end_libs", .toList), ("srr_ids", .toList),
     ("debug", .toBool)]),
   ("metagenomebinning",
    [("paired_end_libs", .toList), ("single_end_libs", .toList), ("srr_ids", .toList),
     ("min_contig_len", .toIntIfTruthy), ("min_contig_cov", .toIntIfTruthy)]),
   ("genomealignment",
    [("genome_ids", .toList)]),
   ("comprehensivegenomeanalysis",
    [("paired_end_libs", .toList), ("single_end_libs", .toList), ("srr_ids", .toList),
     ("taxonomy_id", .toIntIfNotEmptyish), ("code", .toIntIfNotEmptyish),
     ("racon_iter", .toIntIfNotEmptyish), ("pilon_iter", .toIntIfNotEmptyish),
     ("target_depth", .toIntIfNotEmptyish), ("min_contig_len", .toIntIfNotEmptyish),
     ("min_contig_cov", .toNumber), ("genome_size", .toNumber),
     ("trim", .toBool), ("normalize", .toBool), ("filtlong", .toBool),
     ("public", .toBool), ("queue_nowait", .toBool), ("skip_indexing", .toBool),
     ("analyze_quality", .toBool)])]

/-- SERVICE_FIELD_ALIASES keyed by normalized service name. -/
def serviceFieldAliases : List (String × List (String × String)) :=
  [("homology",
    [("precomputed_database", "db_precomputed_database"),
     ("db_precomputed_db", "db_precomputed_database")]),
   ("blast",
    [("precomputed_database", "db_precomputed_database"),
     ("db_precomputed_db", "db_precomputed_database")]),
   ("comprehensivegenomeanalysis",
    [("tax_id", "taxonomy_id"), ("taxon_id", "taxonomy_id"), ("taxonid", "taxonomy_id"),
     ("srr_accession", "srr_ids"), ("srr_accessions", "srr_ids"),
     ("output_folder", "output_path"), ("output_name", "output_file")])]

/-- Generic association-list lookup for string-keyed tables. -/
def tableLookup {α : Type} (table : List (String × α)) (k : String) : Option α :=
  match table.find? (fun kv => kv.1 = k) with
  | some kv => some kv.2
  | none => none

/-- Embeds _apply_field_aliases: move each aliased field to its canonical
name when the canonical name is absent. -/
def applyFieldAliases (stepApp : String) (params : List (String × Json)) :
    List (String × Json) :=
  match tableLookup serviceFieldAliases (normalizeServiceName stepApp) with
  | none => params
  | some aliasMap =>
      aliasMap.foldl
        (fun ps (al : String × String) =>
          if Json.hasKey ps al.1 && ¬ Json.hasKey ps al.2 then
            match Json.lookupKey ps al.1 with
            | some v => (Json.removeKey ps al.1) ++ [(al.2, v)]
            | none => ps
          else ps)
        params

/-- HOMOLOGY_PRECOMPUTED_DATABASES allowlist. -/
def homologyPrecomputedDatabases : List String := ["bacteria-archaea", "viral-reference"]

/-- HOMOLOGY_PRECOMPUTED_DB_ALIASES. -/
def homologyPrecomputedDbAliases : List (String × String) :=
  [("patric", "bacteria-archaea"), ("bacteria_archaea", "bacteria-archaea"),
   ("bacteria archaea", "bacteria-archaea"), ("viral_reference", "viral-reference"),
   ("viral reference", "viral-reference")]

/-- Embeds _normalize_homology_precomputed_database: strip and lowercase
the value and map known aliases to canonical database ids. -/
def normalizeHomologyPrecomputedDb (stepApp : String) (params : List (String × Json)) :
    List (String × Json) :=
  let serviceKey := normalizeServiceName stepApp
  if serviceKey = "homology" ∨ serviceKey = "blast" then
    match Json.lookupKey params "db_precomputed_database" with
    | some (.str v) =>
        let candidate := pyToLower (pyTrim v)
        let canonical := (tableLookup homologyPrecomputedDbAliases candidate).getD candidate
        if canonical ≠ v then Json.setKey params "db_precomputed_database" (.str canonical)
        else params
    | _ => params
  else params

/-- CGA enum allowlists. -/
def cgaInputTypes : List String := ["reads", "contigs", "genbank"]

/-- CGA recipe allowlist. -/
def cgaRecipes : List String :=
  ["auto", "unicycler", "canu", "spades", "meta-spades", "plasmid-spades",
   "single-cell", "flye"]

/-- CGA domain allowlist. -/
def cgaDomains : List String := ["Bacteria", "Archaea", "Viruses", "auto"]

/-- CGA genetic-code allowlist. -/
def cgaCodes : List Int := [0, 1, 4, 11, 25]

/-- CGA input_type aliases. -/
def cgaInputTypeAliases : List (String × String) :=
  [("read", "reads"), ("reads", "reads"), ("raw_reads", "reads"), ("fastq", "reads"),
   ("read_file", "reads"), ("contig", "contigs"), ("contigs", "contigs"),
   ("assembled_contigs", "contigs"), ("contig_file", "contigs"),
   ("genbank", "genbank"), ("gbk", "genbank"), ("genbank_file", "genbank")]

/-- CGA recipe aliases. -/
def cgaRecipeAliases : List (String × String) :=
  [("meta_flye", "flye"), ("meta-flye", "flye"), ("metaflye", "flye"),
   ("single_cell", "single-cell"), ("meta_spades", "meta-spades"),
   ("plasmid_spades", "plasmid-spades")]

/-- CGA domain aliases. -/
def cgaDomainAliases : List (String × String) :=
  [("bacteria", "Bacteria"), ("bacterial", "Bacteria"), ("archaea", "Archaea"),
   ("archaeal", "Archaea"), ("virus", "Viruses"), ("viruses", "Viruses"),
   ("viral", "Viruses"), ("auto", "auto")]

/-- CGA genetic-code aliases. -/
def cgaCodeAliases : List (String × Int) :=
  [("11 (archaea & most bacteria)", 11),
   ("4 (mycoplasma, spiroplasma, & ureaplasma )", 4),
   ("25 (candidate division sr1 & gracilibacteria)", 25)]

/-- Embeds _normalize_cga_enum_aliases. -/
def normalizeCgaEnumAliases (stepApp : String) (params : List (String × Json)) :
    List (String × Json) :=
  if normalizeServiceName stepApp ≠ "comprehensivegenomeanalysis" then params
  else
    let p1 := match Json.lookupKey params "input_type" with
      | some (.str it) =>
          let candidate := pyToLower (pyTrim it)
          let canonical := (tableLookup cgaInputTypeAliases candidate).getD candidate
          if canonical ≠ it then Json.setKey params "input_type" (.str canonical) else params
      | _ => params
    let p2 := match Json.lookupKey p1 "recipe" with
      | some (.str r) =>
          let candidate := pyToLower (pyTrim r)
          let canonical := (tableLookup cgaRecipeAliases candidate).getD candidate
          if canonical ≠ r then Json.setKey p1 "recipe" (.str canonical) else p1
      | _ => p1
    let p3 := match Json.lookupKey p2 "domain" with
      | some (.str d) =>
          let candidate := pyToLower (pyTrim d)
          let canonical := (tableLookup cgaDomainAliases candidate).getD (pyTrim d)
          if canonical ≠ d then Json.setKey p2 "domain" (.str canonical) else p2
      | _ => p2
    match Json.lookupKey p3 "code" with
    | some (.str c) =>
        match tableLookup cgaCodeAliases (pyTrim c) with
        | some n => Json.setKey p3 "code" (.num n)
        | none => p3
    | _ => p3

/-- PATTERN_RULES: ordered name predicates with their coercers
(case-insensitive). -/
def patternRules : List ((String → Bool) × Coercer) :=
  [(fun n => pyEndsWith n "_id_list" || pyEndsWith n "_ids" || pyEndsWith n "_list", .toList),
   (fun n => n ∈ ["genome_ids", "taxon_ids", "feature_ids", "genomes", "taxa", "features"],
    .toList),
   (fun n => pyEndsWith n "_libs", .toList),
   (fun n => n = "groups", .toList),
   (fun n => n ∈ ["contrasts", "experimental_conditions"], .toList)]

/-- First matching pattern rule for a (lowercased) field name. -/
def findPatternCoercer (fieldName : String) : Option Coercer :=
  match patternRules.find? (fun rule => rule.1 (pyToLower fieldName)) with
  | some rule => some rule.2
  | none => none

/-- One field of the main coercion loop of coerce_workflow_step_params:
service-specific rule first, then the first matching pattern rule, the
latter only when no service-specific rule covers the field. -/
def coerceField (serviceRules : List (String × Coercer)) (fieldName : String) (v : Json) :
    Json :=
  let v1 := match tableLookup serviceRules fieldName with
    | some c => applyCoercer c v
    | none => v
  match findPatternCoercer fieldName with
  | some c =>
      if (tableLookup serviceRules fieldName).isSome then v1 else applyCoercer c v1
  | none => v1

/-- Embeds coerce_workflow_step_params (strict=False: coercion never
raises). -/
def coerceWorkflowStepParams (stepApp : String) (params : List (String × Json)) :
    List (String × Json) :=
  if params.isEmpty then params
  else
    let p1 := applyFieldAliases stepApp params
    let p2 := normalizeHomologyPrecomputedDb stepApp p1
    let p3 := normalizeCgaEnumAliases stepApp p2
    let serviceRules := (tableLookup serviceFieldRules (normalizeServiceName stepApp)).getD []
    p3.map (fun kv => (kv.1, coerceField serviceRules kv.1 kv.2))

/-- Embeds coerce_workflow_definition: coerce every step's params dict. -/
def coerceWorkflowDefinition (wf : Json) : Json :=
  match wf with
  | .obj kvs =>
      match Json.lookupKey kvs "steps" with
      | some (.arr steps) =>
          .obj (Json.setKey kvs "steps" (.arr (steps.map (fun stepJson =>
            match stepJson with
            | .obj st =>
                let stepApp := match Json.lookupKey st "app" with
                  | some (.str a) => a
                  | _ => ""
                match Json.lookupKey st "params" with
                | some (.obj params) =>
                    .obj (Json.setKey st "params"
                      (.obj (coerceWorkflowStepParams stepApp params)))
                | _ => .obj st
            | other => other))))
      | _ => .obj kvs
  | other => other

/-- One conditional-required rule of CONDITIONAL_REQUIRED_RULES. -/
structure CondRule where
  field : String
  equals : String
  required : List String
  requiredOneOf : List String
  message : String

/-- CONDITIONAL_REQUIRED_RULES keyed by normalized service name. -/
def conditionalRequiredRules : List (String × List CondRule) :=
  [("homology",
    [⟨"db_source", "precomputed_database", ["db_precomputed_database"], [],
      "When db_source is 'precomputed_database', db_precomputed_database must be provided."⟩,
     ⟨"input_source", "id_list", ["input_id_list"], [],
      "When input_source is 'id_list', input_id_list must be provided."⟩,
     ⟨"db_source", "id_list", ["db_id_list"], [],
      "When db_source is 'id_list', db_id_list must be provided."⟩]),
   ("blast",
    [⟨"db_source", "precomputed_database", ["db_precomputed_database"], [],
      "When db_source is 'precomputed_database', db_precomputed_database must be provided."⟩,
     ⟨"input_source", "id_list", ["input_id_list"], [],
      "When input_source is 'id_list', input_id_list must be provided."⟩,
     ⟨"db_source", "id_list", ["db_id_list"], [],
      "When db_source is 'id_list', db_id_list must be provided."⟩]),
   ("comprehensivegenomeanalysis",
    [⟨"input_type", "reads", [], ["paired_end_libs", "single_end_libs", "srr_ids"],
      "When input_type is 'reads', at least one reads source must be provided: paired_end_libs, single_end_libs, or srr_ids."⟩,
     ⟨"input_type", "contigs", [], ["contigs", "reference_assembly"],
      "When input_type is 'contigs', at least one contig source must be provided: contigs or reference_assembly."⟩,
     ⟨"input_type", "genbank", [], ["genbank_file", "gto"],
      "When input_type is 'genbank', at least one GenBank source must be provided: genbank_file or gto."⟩])]

/-- A required field counts as missing when absent, empty-ish
(None, empty string, empty list) or a blank string. -/
def fieldMissing (params : List (String × Json)) (f : String) : Bool :=
  match Json.lookupKey params f with
  | none => true
  | some v =>
      Json.isEmptyish v ||
      (match v with
       | .str s => pyTrim s = ""
       | _ => false)

/-- The params value of a field equals a given string. -/
def paramEqStr (params : List (String × Json)) (f s : String) : Bool :=
  match Json.lookupKey params f with
  | some (.str t) => t = s
  | _ => false

/-- One conditional rule applied to a step's params. -/
def applyCondRule (params : List (String × Json)) (rule : CondRule) : List String :=
  if ¬ paramEqStr params rule.field rule.equals then []
  else
    let missing := rule.required.filter (fieldMissing params)
    let e1 := if missing.isEmpty then []
      else [rule.message ++ " Missing: " ++ String.intercalate ", " missing ++ "."]
    let e2 :=
      if rule.requiredOneOf.isEmpty then []
      else if rule.requiredOneOf.any (fun f => ¬ fieldMissing params f) then []
      else [rule.message]
    e1 ++ e2

/-- Field value as a strip-lowered candidate when it is a string,
mirroring the candidate computation of the allowlist checks. -/
def strCandidate : Json → Option String
  | .str s => some (pyToLower (pyTrim s))
  | _ => none

/-- The CGA genetic-code candidate: ints pass through, digit strings are
converted, Python bools count as ints 0 and 1. -/
def cgaCodeCandidateOk : Json → Bool
  | .num n => n ∈ cgaCodes
  | .str s => match pyToNat (pyTrim s) with
      | some n => (n : Int) ∈ cgaCodes
      | none => false
  | .bool b => ((if b then 1 else 0) : Int) ∈ cgaCodes
  | _ => false

/-- A field counts as a conflicting input when present and not
None, empty string or empty list. -/
def fieldPresentNonEmpty (params : List (String × Json)) (f : String) : Bool :=
  match Json.lookupKey params f with
  | none => false
  | some v => ¬ Json.isEmptyish v

/-- Embeds validate_step_service_field_rules: the conditional rules for
the step's service, the Homology precomputed-database allowlist and the
ComprehensiveGenomeAnalysis enum and input-compatibility checks. -/
def validateStepServiceFieldRules (stepApp : String) (params : List (String × Json)) :
    List String :=
  let serviceKey := normalizeServiceName stepApp
  let rules := (tableLookup conditionalRequiredRules serviceKey).getD []
  let condErrors := rules.foldl (fun acc r => acc ++ applyCondRule params r) []
  let homologyErrors :=
    if (serviceKey = "homology" ∨ serviceKey = "blast") &&
        paramEqStr params "db_source" "precomputed_database" then
      let precomputed := (Json.lookupKey params "db_precomputed_database").getD .null
      let ok := match strCandidate precomputed with
        | some c => homologyPrecomputedDatabases.contains c
        | none => false
      if ok then []
      else
        ["When db_source is 'precomputed_database', db_precomputed_database must be one of: " ++
          String.intercalate ", " homologyPrecomputedDatabases ++ ". Got: " ++
          pyRepr precomputed ++ "."]
    else []
  let cgaErrors :=
    if serviceKey = "comprehensivegenomeanalysis" then
      let inputType := Json.lookupKey params "input_type"
      let itCandidate := match inputType with
        | some v => strCandidate v
        | none => none
      let e1 := match itCandidate with
        | some c =>
            if c ∈ cgaInputTypes then []
            else ["input_type must be one of: reads, contigs, genbank. Got: " ++
              pyRepr ((inputType).getD .null) ++ "."]
        | none => ["input_type must be one of: reads, contigs, genbank. Got: " ++
            pyRepr ((inputType).getD .null) ++ "."]
      let e2 := match Json.lookupKey params "recipe" with
        | none => []
        | some .null => []
        | some r =>
            let rc := match strCandidate r with
              | some c => cgaRecipes.contains c
              | none => false
            if rc then []
            else ["recipe must be one of: " ++
              String.intercalate ", " (cgaRecipes.mergeSort (fun a b => a ≤ b)) ++
              ". Got: " ++ pyRepr r ++ "."]
      let e3 := match Json.lookupKey params "domain" with
        | none => []
        | some .null => []
        | some d =>
            let ok := match d with
              | .str s => cgaDomains.contains s
              | _ => false
            if ok then []
            else ["domain must be one of: " ++
              String.intercalate ", " (cgaDomains.mergeSort (fun a b => a ≤ b)) ++
              ". Got: " ++ pyRepr d ++ "."]
      let e4 := match Json.lookupKey params "code" with
        | none => []
        | some .null => []
        | some c => if cgaCodeCandidateOk c then [] else
            ["code must be one of: [0, 1, 4, 11, 25]. Got: " ++ pyRepr c ++ "."]
      let e5 :=
        if itCandidate = some "reads" then
          let conflicts := ["contigs", "genbank_file", "gto"].filter
            (fieldPresentNonEmpty params)
          if conflicts.isEmpty then []
          else ["When input_type is 'reads', do not provide contigs/genbank inputs. Conflicting fields: " ++
            String.intercalate ", " conflicts ++ "."]
        else if itCandidate = some "contigs" then
          let conflicts := ["paired_end_libs", "single_end_libs", "srr_ids",
            "genbank_file", "gto"].filter (fieldPresentNonEmpty params)
          if conflicts.isEmpty then []
          else ["When input_type is 'contigs', do not provide reads or genbank inputs. Conflicting fields: " ++
            String.intercalate ", " conflicts ++ "."]
        else if itCandidate = some "genbank" then
          let conflicts := ["paired_end_libs", "single_end_libs", "srr_ids",
            "contigs", "reference_assembly"].filter (fieldPresentNonEmpty params)
          if conflicts.isEmpty then []
          else ["When input_type is 'genbank', do not provide reads/contigs assembly inputs. Conflicting fields: " ++
            String.intercalate ", " conflicts ++ "."]
        else []
      e1 ++ e2 ++ e3 ++ e4 ++ e5
    else []
  condErrors ++ homologyErrors ++ cgaErrors

/-- Embeds validate_workflow_service_field_rules: per-step errors
prefixed with the step name and app. -/
def validateWorkflowServiceFieldRules (wf : Json) : List String :=
  match wf with
  | .obj kvs =>
      match Json.lookupKey kvs "steps" with
      | some (.arr steps) =>
          (steps.enum.map (fun (si : Nat × Json) =>
            match si.2 with
            | .obj st =>
                let stepName := match Json.lookupKey st "step_name" with
                  | some (.str n) => if n ≠ "" then n else "step[" ++ toString si.1 ++ "]"
                  | _ => "step[" ++ toString si.1 ++ "]"
                let stepApp := match Json.lookupKey st "app" with
                  | some (.str a) => a
                  | _ => ""
                let params := match Json.lookupKey st "params" with
                  | some (.obj p) => p
                  | _ => []
                (validateStepServiceFieldRules stepApp params).map
                  (fun e => "Step '" ++ stepName ++ "' (" ++ stepApp ++ "): " ++ e)
            | _ => [])).flatten
      | _ => []
  | _ => []

/-! ## src/utils/workflow_cleaner.py : clean_empty_optional_lists -/

/-- App-name test for ComprehensiveGenomeAnalysis (case-insensitive,
dashes as underscores). -/
def isComprehensiveGenomeAnalysisApp (app : String) : Bool :=
  if app = "" then false
  else
    let lower := pyReplace (pyToLower (pyTrim app)) "-" "_"
    lower = "comprehensivegenomeanalysis" || lower = "comprehensive_genome_analysis"

/-- App-name test for TaxonomicClassification. -/
def isTaxonomicClassificationApp (app : String) : Bool :=
  if app = "" then false
  else
    let lower := pyReplace (pyToLower (pyTrim app)) "-" "_"
    lower = "taxonomicclassification" || lower = "taxonomic_classification"

/-- Embeds clean_empty_optional_lists: drop empty optional list fields
for the two services whose validators reject empty lists. -/
def cleanEmptyOptionalLists (wf : Json) : Json :=
  match wf with
  | .obj kvs =>
      match Json.lookupKey kvs "steps" with
      | some (.arr steps) =>
          .obj (Json.setKey kvs "steps" (.arr (steps.map (fun stepJson =>
            match stepJson with
            | .obj st =>
                let app := match Json.lookupKey st "app" with
                  | some (.str a) => a
                  | _ => ""
                let fieldsToClean :=
                  if isComprehensiveGenomeAnalysisApp app then
                    ["paired_end_libs", "single_end_libs", "srr_ids"]
                  else if isTaxonomicClassificationApp app then
                    ["paired_end_libs", "single_end_libs", "srr_libs"]
                  else []
                match Json.lookupKey st "params" with
                | some (.obj params) =>
                    let params' := fieldsToClean.foldl
                      (fun ps f =>
                        match Json.lookupKey ps f with
                        | some (.arr []) => Json.removeKey ps f
                        | _ => ps)
                      params
                    .obj (Json.setKey st "params" (.obj params'))
                | _ => .obj st
            | other => other))))
      | _ => .obj kvs
  | other => other

/-! ## src/utils/output_file_checker.py : output deconfliction

The workspace probe becomes a function from path to existence; any
workspace error is fail-open inside the probe. The attempt cap is the
MAX_OUTPUT_FILE_ATTEMPTS environment value, default 100. -/

/-- Default MAX_OUTPUT_FILE_ATTEMPTS. -/
def defaultMaxOutputFileAttempts : Nat := 100

/-- Path normalization applied before probing (double slash collapse). -/
def collapseDoubleSlash (s : String) : String := pyReplace s "//" "/"

/-- Embeds _check_output_exists: probe both the output path and its
hidden-directory sibling. -/
def checkOutputExists (probe : String → Bool) (outputPath outputFile : String) : Bool :=
  probe (collapseDoubleSlash (outputPath ++ "/" ++ outputFile)) ||
  probe (collapseDoubleSlash (outputPath ++ "/." ++ outputFile))

/-- The numbered-candidate loop of _generate_unique_output_name: try
base_2, base_3, ... for the given number of attempts, returning the first
free candidate. -/
def generateUniqueLoop (probe : String → Bool) (outputPath baseName : String) :
    Nat → Nat → Option String
  | _, 0 => none
  | attempt, remaining + 1 =>
      let candidateName := baseName ++ "_" ++ toString attempt
      if ¬ checkOutputExists probe outputPath candidateName then some candidateName
      else generateUniqueLoop probe outputPath baseName (attempt + 1) remaining

/-- Embeds _generate_unique_output_name: candidates base_2 through
base_(maxAttempts+1); past the cap a ValueError is raised. -/
def generateUniqueOutputName (probe : String → Bool) (maxAttempts : Nat)
    (baseName outputPath stepName : String) : Except String String :=
  match generateUniqueLoop probe outputPath baseName 2 maxAttempts with
  | some c => .ok c
  | none =>
      .error ("Cannot find unique output name for step '" ++ stepName ++ "' after " ++
        toString maxAttempts ++ " attempts")

/-- Embeds _resolve_output_path_variables: substitute identifier tokens
from base_context or the environment; unresolved tokens make the result
non-resolvable (second component false). -/
def resolveOutputPathVariables (baseContext : List (String × Json))
    (env : String → Option String) (outputPath : String) : String × Bool :=
  (findSimpleVarRefs outputPath).foldl
    (fun (acc : String × Bool) varName =>
      if varName.toList.contains '.' || varName.toList.contains '[' then (acc.1, false)
      else
        match Json.lookupKey baseContext varName with
        | some v => (pyReplace acc.1 (varToken varName) (pyStr v), acc.2)
        | none =>
            match env varName with
            | some ev => (pyReplace acc.1 (varToken varName) ev, acc.2)
            | none => (acc.1, false))
    (outputPath, true)

/-- Embeds _resolve_step_output_conflict for one step object: resolve the
output path, probe for a collision, and rewrite params.output_file to the
first free numbered candidate; the boolean reports whether the step was
modified. Raises (as an error value) only via the attempt cap. -/
def resolveStepOutputConflict (probe : String → Bool) (maxAttempts : Nat)
    (baseContext : List (String × Json)) (env : String → Option String)
    (st : List (String × Json)) (stepName : String) :
    Except String (List (String × Json) × Bool) :=
  let params := match Json.lookupKey st "params" with
    | some (.obj p) => p
    | _ => []
  let outputPath := pyStr ((Json.lookupKey params "output_path").getD (.str ""))
  let outputFile := pyStr ((Json.lookupKey params "output_file").getD (.str ""))
  let resolved := resolveOutputPathVariables baseContext env outputPath
  if ¬ resolved.2 then .ok (st, false)
  else if checkOutputExists probe resolved.1 outputFile then
    match generateUniqueOutputName probe maxAttempts outputFile resolved.1 stepName with
    | .error e => .error e
    | .ok uniqueName =>
        if uniqueName ≠ outputFile then
          .ok (Json.setKey st "params"
            (.obj (Json.setKey params "output_file" (.str uniqueName))), true)
        else .ok (st, false)
  else .ok (st, false)

/-- A step is relevant when it declares both output_path and output_file. -/
def isRelevantStep (st : List (String × Json)) : Bool :=
  match Json.lookupKey st "params" with
  | some (.obj params) =>
      Json.hasKey params "output_path" && Json.hasKey params "output_file"
  | _ => false

/-- One step of check_and_resolve_conflicts: irrelevant steps are
skipped, and every per-step exception (the attempt-cap ValueError
included) is caught, logged and the step left unchanged. -/
def deconflictStep (probe : String → Bool) (maxAttempts : Nat)
    (baseContext : List (String × Json)) (env : String → Option String)
    (idx : Nat) (stepJson : Json) : Json :=
  match stepJson with
  | .obj st =>
      if isRelevantStep st then
        let stepName := match Json.lookupKey st "step_name" with
          | some (.str n) => n
          | _ => "step_" ++ toString idx
        match resolveStepOutputConflict probe maxAttempts baseContext env st
            stepName with
        | .ok (st', _) => .obj st'
        | .error _ => .obj st
      else .obj st
  | other => other

/-- Embeds check_and_resolve_conflicts: walk the steps, never raising, so
the caller always receives a document. -/
def checkAndResolveConflicts (probe : String → Bool) (maxAttempts : Nat)
    (env : String → Option String) (kvs : List (String × Json)) :
    List (String × Json) :=
  let baseContext := match Json.lookupKey kvs "base_context" with
    | some (.obj b) => b
    | _ => []
  match Json.lookupKey kvs "steps" with
  | some (.arr steps) =>
      Json.setKey kvs "steps" (.arr (steps.enum.map (fun (si : Nat × Json) =>
        deconflictStep probe maxAttempts baseContext env si.1 si.2)))
  | _ => kvs

/-! ## src/core/validator.py : app-name normalization, dependency and
reference checks, and the compile entry point validate_workflow_input -/

/-- FRIENDLY_TO_APP_ID: canonical AppService ids by friendly alias. -/
def friendlyToAppId : List (String × String) :=
  [("date", "Date"), ("genome_assembly", "GenomeAssembly2"),
   ("genome_annotation", "GenomeAnnotation"),
   ("comprehensive_genome_analysis", "ComprehensiveGenomeAnalysis"),
   ("blast", "Homology"), ("primer_design", "PrimerDesign"),
   ("variation", "Variation"), ("tnseq", "TnSeq"),
   ("bacterial_genome_tree", "CodonTree"), ("gene_tree", "GeneTree"),
   ("core_genome_mlst", "CoreGenomeMLST"), ("whole_genome_snp", "WholeGenomeSNPAnalysis"),
   ("taxonomic_classification", "TaxonomicClassification"),
   ("metagenomic_binning", "MetagenomeBinning"),
   ("metagenomic_read_mapping", "MetagenomicReadMapping"),
   ("rnaseq", "RNASeq"), ("expression_import", "ExpressionImport"),
   ("sars_wastewater_analysis", "SARSWastewaterAnalysis"),
   ("sequence_submission", "SequenceSubmission"),
   ("influenza_ha_subtype_conversion", "InfluenzaHASubtypeConversion"),
   ("subspecies_classification", "SubspeciesClassification"),
   ("viral_assembly", "ViralAssembly"), ("genome_alignment", "GenomeAlignment"),
   ("sars_genome_analysis", "SARS2Assembly"), ("msa_snp_analysis", "MSA"),
   ("metacats", "MetaCATS"), ("proteome_comparison", "GenomeComparison"),
   ("comparative_systems", "ComparativeSystems"), ("docking", "Docking"),
   ("similar_genome_finder", "SimilarGenomeFinder"), ("fastqutils", "FastqUtils")]

/-- EXTRA_APP_ALIASES. -/
def extraAppAliases : List (String × String) :=
  [("hasubtypenumberingconversion", "InfluenzaHASubtypeConversion")]

/-- Apps with a registered validator (src/validators/__init__.py). -/
def registeredValidatorApps : List String :=
  ["GenomeAnnotation", "ComprehensiveGenomeAnalysis"]

/-- Apps with a registered defaults provider. -/
def registeredDefaultsApps : List String :=
  ["GenomeAnnotation", "ComprehensiveGenomeAnalysis"]

/-- Python part capitalization: first character upper, rest kept. -/
def capitalizePart (p : String) : String :=
  match p.toList with
  | [] => ""
  | c :: rest => String.mk (c.toUpper :: rest)

/-- Embeds WorkflowValidator._normalize_step_app_name. -/
def normalizeStepAppName (appName : String) : String :=
  if appName = "" then appName
  else
    let app := pyTrim appName
    if registeredValidatorApps.contains app || registeredDefaultsApps.contains app then app
    else
      let lower := pyToLower app
      match tableLookup friendlyToAppId lower with
      | some cid => cid
      | none =>
          let appIds := (friendlyToAppId.map (·.2)) ++ (extraAppAliases.map (·.2))
          match appIds.find? (fun aid => lower = pyToLower aid) with
          | some aid => aid
          | none =>
              match tableLookup extraAppAliases lower with
              | some cid => cid
              | none =>
                  if app.toList.contains '_' then
                    let candidate := String.join
                      (((pySplitOn app "_").filter (fun part => part ≠ "")).map capitalizePart)
                    if candidate ≠ "" &&
                        (registeredValidatorApps.contains candidate ||
                          registeredDefaultsApps.contains candidate) then
                      candidate
                    else app
                  else app

/-- First step whose depends_on names a step outside the workflow. -/
def findFirstUnknownDep (stepNames : List String) :
    List WorkflowStep → Option (String × String)
  | [] => none
  | step :: rest =>
      match (step.depends_on.getD []).find? (fun dep => ¬ stepNames.contains dep) with
      | some dep => some (step.step_name, dep)
      | none => findFirstUnknownDep stepNames rest

/-- Embeds WorkflowValidator.validate_step_dependencies: every
depends_on entry names a step of the workflow, then no cycles. -/
def validateStepDependencies (steps : List WorkflowStep) : Except String Unit :=
  let stepNames := steps.map (·.step_name)
  match findFirstUnknownDep stepNames steps with
  | some (sname, dep) =>
      .error ("Step '" ++ sname ++ "' depends on unknown step '" ++ dep ++ "'")
  | none =>
      checkCircularDependencies (steps.map (fun s => (s.step_name, s.depends_on.getD [])))

/-- The per-token check of validate_variable_references: a token whose
first dot-part is steps must name a known step in its second part. -/
def checkRefTokens (stepNames : List String) (ctx : String) :
    List String → Except String Unit
  | [] => .ok ()
  | tok :: rest =>
      match pySplitOn tok "." with
      | p0 :: p1 :: _ =>
          if p0 = "steps" && ¬ stepNames.contains p1 then
            .error ("In " ++ ctx ++ ": Variable reference '" ++ varToken tok ++
              "' refers to unknown step '" ++ p1 ++ "'")
          else checkRefTokens stepNames ctx rest
      | _ => checkRefTokens stepNames ctx rest

/-- String check of validate_variable_references. -/
def checkStringRefs (stepNames : List String) (value : String) (ctx : String) :
    Except String Unit :=
  checkRefTokens stepNames ctx (findVarRefs value)

mutual

/-- Recursive value check of validate_variable_references. -/
def checkValueRefs (stepNames : List String) :
    Json → String → Except String Unit
  | .str s, ctx => checkStringRefs stepNames s ctx
  | .obj kvs, ctx => checkValueRefsObj stepNames kvs ctx
  | .arr xs, ctx => checkValueRefsArr stepNames xs ctx 0
  | _, _ => .ok ()

/-- Object branch of the reference check. -/
def checkValueRefsObj (stepNames : List String) :
    List (String × Json) → String → Except String Unit
  | [], _ => .ok ()
  | (k, v) :: rest, ctx =>
      match checkValueRefs stepNames v (ctx ++ "." ++ k) with
      | .error e => .error e
      | .ok _ => checkValueRefsObj stepNames rest ctx

/-- Array branch of the reference check. -/
def checkValueRefsArr (stepNames : List String) :
    List Json → String → Nat → Except String Unit
  | [], _, _ => .ok ()
  | v :: rest, ctx, i =>
      match checkValueRefs stepNames v (ctx ++ "[" ++ toString i ++ "]") with
      | .error e => .error e
      | .ok _ => checkValueRefsArr stepNames rest ctx (i + 1)

end

/-- Step-outputs check of validate_variable_references (outputs are a
string map in the schema). -/
def checkOutputsRefs (stepNames : List String) (ctx : String) :
    List (String × String) → Except String Unit
  | [] => .ok ()
  | (k, v) :: rest =>
      match checkStringRefs stepNames v (ctx ++ "." ++ k) with
      | .error e => .error e
      | .ok _ => checkOutputsRefs stepNames ctx rest

/-- Per-step part of validate_variable_references. -/
def checkStepsRefs (stepNames : List String) :
    List WorkflowStep → Except String Unit
  | [] => .ok ()
  | step :: rest =>
      let ctx := "step '" ++ step.step_name ++ "'"
      match checkValueRefs stepNames (.obj step.params) (ctx ++ ".params") with
      | .error e => .error e
      | .ok _ =>
          match (match step.outputs with
            | some outs => checkOutputsRefs stepNames (ctx ++ ".outputs") outs
            | none => .ok ()) with
          | .error e => .error e
          | .ok _ => checkStepsRefs stepNames rest

/-- Workflow-outputs part of validate_variable_references. -/
def checkWoRefs (stepNames : List String) :
    Nat → List String → Except String Unit
  | _, [] => .ok ()
  | i, v :: rest =>
      match checkStringRefs stepNames v ("workflow_outputs[" ++ toString i ++ "]") with
      | .error e => .error e
      | .ok _ => checkWoRefs stepNames (i + 1) rest

/-- Embeds WorkflowValidator.validate_variable_references: step
references in any step's params or outputs and in workflow_outputs must
name an existing step; nothing is checked about the referenced output
keys. -/
def validateVariableReferences (wf : WorkflowDefinition) : Except String Unit :=
  let stepNames := wf.steps.map (·.step_name)
  match checkStepsRefs stepNames wf.steps with
  | .error e => .error e
  | .ok _ =>
      match wf.workflow_outputs with
      | some wo => checkWoRefs stepNames 0 wo
      | none => .ok ()

/-- Result triple of a per-app step validator. -/
structure ValidationResult where
  params : List (String × Json)
  warnings : List String
  errors : List String

/-- The two registered per-app validators and defaults providers, left
abstract: the claims below hold for every implementation because the
inputs they mention use apps outside the registry. -/
structure ValidatorImpls where
  gaDefaults : List (String × Json) → List (String × Json)
  cgaDefaults : List (String × Json) → List (String × Json)
  gaValidator : List (String × Json) → ValidationResult
  cgaValidator : List (String × Json) → ValidationResult

/-- Registry lookup get_defaults. -/
def getDefaultsImpl (impls : ValidatorImpls) (app : String) :
    Option (List (String × Json) → List (String × Json)) :=
  if app = "GenomeAnnotation" then some impls.gaDefaults
  else if app = "ComprehensiveGenomeAnalysis" then some impls.cgaDefaults
  else none

/-- Registry lookup get_validator. -/
def getValidatorImpl (impls : ValidatorImpls) (app : String) :
    Option (List (String × Json) → ValidationResult) :=
  if app = "GenomeAnnotation" then some impls.gaValidator
  else if app = "ComprehensiveGenomeAnalysis" then some impls.cgaValidator
  else none

/-- One step of _apply_step_validators: normalize the app name, apply
defaults, run the validator, collect prefixed errors. -/
def applyStepValidatorsStep (impls : ValidatorImpls) (st : List (String × Json)) :
    List (String × Json) × List String :=
  let stepName := match Json.lookupKey st "step_name" with
    | some (.str n) => n
    | some v => pyStr v
    | none => "unknown"
  let originalApp := match Json.lookupKey st "app" with
    | some (.str a) => a
    | _ => ""
  let appName := normalizeStepAppName originalApp
  let st1 := if appName ≠ originalApp then Json.setKey st "app" (.str appName) else st
  if appName = "" then (st1, [])
  else
    let params0 := match Json.lookupKey st1 "params" with
      | some (.obj p) => p
      | _ => []
    let st2 := match getDefaultsImpl impls appName with
      | some d => Json.setKey st1 "params" (.obj (d params0))
      | none => st1
    match getValidatorImpl impls appName with
    | none => (st2, [])
    | some vf =>
        let result := vf st2
        let errs := result.errors.map
          (fun e => "Step '" ++ stepName ++ "' (" ++ appName ++ "): " ++ e)
        (Json.setKey st2 "params" (.obj result.params), errs)

/-- Embeds WorkflowValidator._apply_step_validators over the raw
document: mutate every step, then raise one batched error or
return the updated document. -/
def applyStepValidators (impls : ValidatorImpls) (wf : Json) : Except String Json :=
  match wf with
  | .obj kvs =>
      match Json.lookupKey kvs "steps" with
      | some (.arr steps) =>
          let results := steps.map (fun stepJson =>
            match stepJson with
            | .obj st =>
                let r := applyStepValidatorsStep impls st
                (Json.obj r.1, r.2)
            | other => (other, []))
          let allErrors := (results.map (·.2)).flatten
          if allErrors.isEmpty then
            .ok (.obj (Json.setKey kvs "steps" (.arr (results.map (·.1)))))
          else
            .error ("Step validation failed with " ++ toString allErrors.length ++
              " error(s):\n" ++
              String.intercalate "\n" (allErrors.map (fun e => "  - " ++ e)))
      | _ => .ok (.obj kvs)
  | other => .ok other

/-- First step object carrying a step_id key, with its rendered name. -/
def findStepWithStepId (steps : List Json) : Option String :=
  match steps with
  | [] => none
  | .obj st :: rest =>
      if Json.hasKey st "step_id" then
        some (match Json.lookupKey st "step_name" with
          | some (.str n) => n
          | some v => pyStr v
          | none => "None")
      else findStepWithStepId rest
  | _ :: rest => findStepWithStepId rest

/-- Pydantic errors surface as a ValueError with this prefix. -/
def wrapSchema {α : Type} : Except String α → Except String α
  | .ok a => .ok a
  | .error e => .error ("Schema validation failed: " ++ e)

/-- The business checks run at the end of validate_workflow_input. -/
def finalChecks (wf : WorkflowDefinition) : Except String WorkflowDefinition := do
  let _ ← validateStepDependencies wf.steps
  let _ ← validateVariableReferences wf
  .ok wf

/-- Embeds WorkflowValidator.validate_workflow_input: the workflow_id and
step_id input checks, coercion, service field rules, schema validation,
defaults and per-app validators, the workspace output deconflict (run
only when an auth token is present, here the workspace probe option), and
the dependency and variable-reference checks. -/
def validateWorkflowInput (impls : ValidatorImpls) (env : String → Option String)
    (workspace : Option (String → Bool)) (wfData : Json) :
    Except String WorkflowDefinition :=
  match wfData with
  | .obj kvs =>
      if Json.hasKey kvs "workflow_id" then
        .error "Input workflow should not contain 'workflow_id'. IDs are assigned by the scheduler."
      else
        let steps0 := match Json.lookupKey kvs "steps" with
          | some (.arr xs) => xs
          | _ => []
        match findStepWithStepId steps0 with
        | some name =>
            .error ("Input step '" ++ name ++
              "' should not contain 'step_id'. IDs are assigned by the scheduler.")
        | none =>
            let coerced := coerceWorkflowDefinition (.obj kvs)
            let sfErrors := validateWorkflowServiceFieldRules coerced
            if ¬ sfErrors.isEmpty then
              .error ("Service field validation failed:\n  - " ++
                String.intercalate "\n  - " sfErrors)
            else do
              let _ ← wrapSchema (parseWorkflowDefinition coerced)
              let wfData2 ← applyStepValidators impls coerced
              match workspace with
              | some probe =>
                  let wfData3 := match wfData2 with
                    | .obj kvs2 =>
                        Json.obj (checkAndResolveConflicts probe
                          defaultMaxOutputFileAttempts env kvs2)
                    | o => o
                  let parsed3 ← wrapSchema (parseWorkflowDefinition wfData3)
                  finalChecks parsed3
              | none =>
                  let parsed2 ← wrapSchema (parseWorkflowDefinition wfData2)
                  finalChecks parsed2
  | _ => .error "Schema validation failed: expected an object"

/-! ## src/core/workflow_manager.py : compile entry points -/

/-- Top-level fields stripped by _sanitize_workflow_for_validation
(workflow_id is intentionally kept). -/
def sanitizedTopLevelFields : List String :=
  ["status", "created_at", "updated_at", "submitted_at", "started_at",
   "completed_at", "error_message", "execution_metadata", "log_file_path",
   "auth_token"]

/-- Step fields stripped by _sanitize_workflow_for_validation. -/
def sanitizedStepFields : List String :=
  ["step_id", "status", "task_id", "submitted_at", "started_at",
   "completed_at", "elapsed_time", "error_message"]

/-- Embeds WorkflowManager._sanitize_workflow_for_validation: drop the
persistence and runtime fields, keep workflow_id. -/
def sanitizeWorkflowForValidation (doc : Json) : Json :=
  match doc with
  | .obj kvs =>
      let kvs1 := kvs.filter (fun kv => kv.1 ∉ sanitizedTopLevelFields)
      .obj (kvs1.map (fun kv =>
        (kv.1,
          if kv.1 = "steps" then
            match kv.2 with
            | .arr steps =>
                Json.arr (steps.map (fun stJson =>
                  match stJson with
                  | .obj st => Json.obj (st.filter (fun skv => skv.1 ∉ sanitizedStepFields))
                  | other => other))
            | other => other
          else kv.2)))
  | other => other

/-- The stored status equals a given string. -/
def statusIs (statusVal : Option Json) (s : String) : Bool :=
  match statusVal with
  | some (.str t) => t = s
  | _ => false

/-- Embeds WorkflowManager.submit_planned_workflow on the loaded
document: idempotent ok on pending, rejection of other non-planned
statuses, and for planned workflows the sanitize-then-revalidate path
(whose state write-back on success is summarized by the returned pair of
workflow_id and the new status pending). -/
def submitPlannedWorkflow (impls : ValidatorImpls) (env : String → Option String)
    (workspace : Option (String → Bool)) (docOpt : Option Json) (workflowId : String) :
    Except String (String × String) :=
  match docOpt with
  | none => .error ("Workflow " ++ workflowId ++ " not found")
  | some doc =>
      let statusVal := match doc with
        | .obj kvs => Json.lookupKey kvs "status"
        | _ => none
      if statusIs statusVal "pending" then .ok (workflowId, "pending")
      else if ¬ statusIs statusVal "planned" then
        .error ("Workflow " ++ workflowId ++ " cannot be submitted from status '" ++
          pyStr (statusVal.getD .null) ++ "'")
      else
        match validateWorkflowInput impls env workspace
            (sanitizeWorkflowForValidation doc) with
        | .error e => .error e
        | .ok _ => .ok (workflowId, "pending")

/-- Embeds the compile pipeline of register_workflow (also used by
validate and submit): cleanup, variable resolution, then
validate_workflow_input. -/
def compileWorkflow (impls : ValidatorImpls) (env : String → Option String)
    (workspace : Option (String → Bool)) (wfJson : Json) :
    Except String WorkflowDefinition := do
  let cleaned := cleanEmptyOptionalLists wfJson
  let resolved ← resolveWorkflowVariables env cleaned
  validateWorkflowInput impls env workspace resolved

/-! ## Concrete fixtures used by the claims -/

/-- A trivial instantiation of the two registered validators (identity
defaults, no errors); the fixtures below never reach them. -/
def trivialImpls : ValidatorImpls :=
  { gaDefaults := id, cgaDefaults := id,
    gaValidator := fun st =>
      ⟨(match Json.lookupKey st "params" with | some (.obj p) => p | _ => []), [], []⟩,
    cgaValidator := fun st =>
      ⟨(match Json.lookupKey st "params" with | some (.obj p) => p | _ => []), [], []⟩ }

/-- An empty process environment. -/
def noEnv : String → Option String := fun _ => none

/-- A workflow whose two steps share the step_name A. -/
def dupWorkflow : Json := .obj
  [("workflow_name", .str "dup"), ("version", .str "1.0"),
   ("base_context", .obj [("base_url", .str "https://bv-brc.org"),
     ("workspace_output_folder", .str "/ws/out")]),
   ("steps", .arr
     [.obj [("step_name", .str "A"), ("app", .str "Date"), ("params", .obj [])],
      .obj [("step_name", .str "A"), ("app", .str "Date"), ("params", .obj [])]])]

/-- A workflow whose step B references output key missing of step A,
although A declares only the output key out. -/
def refWorkflow : Json := .obj
  [("workflow_name", .str "refs"), ("version", .str "1.0"),
   ("base_context", .obj [("base_url", .str "https://bv-brc.org"),
     ("workspace_output_folder", .str "/ws/out")]),
   ("steps", .arr
     [.obj [("step_name", .str "A"), ("app", .str "Date"), ("params", .obj []),
        ("outputs", .obj [("out", .str "fileA")])],
      .obj [("step_name", .str "B"), ("app", .str "Date"),
        ("params", .obj [("x", .str "${steps.A.outputs.missing}")]),
        ("depends_on", .arr [.str "A"])]])]

/-- The post-resolution document of the pass-3 witness: one step A with
declared output key out and a workflow_outputs entry referencing the
undeclared key missing of A. -/
def woKvs : List (String × Json) :=
  [("workflow_name", .str "wo"), ("version", .str "1.0"),
   ("base_context", .obj [("base_url", .str "https://bv-brc.org"),
     ("workspace_output_folder", .str "/ws/out")]),
   ("steps", .arr
     [.obj [("step_name", .str "A"), ("app", .str "Date"), ("params", .obj []),
        ("outputs", .obj [("out", .str "fileA")])]]),
   ("workflow_outputs", .arr [.str "${steps.A.outputs.missing}"])]

/-- A workflow declaring output_path and output_file, used against a
workspace probe that reports every path as existing. -/
def c8Workflow : Json := .obj
  [("workflow_name", .str "deconflict"), ("version", .str "1.0"),
   ("base_context", .obj [("base_url", .str "https://bv-brc.org"),
     ("workspace_output_folder", .str "/ws/out")]),
   ("steps", .arr
     [.obj [("step_name", .str "S"), ("app", .str "Date"),
        ("params", .obj [("output_path", .str "/ws/out"),
          ("output_file", .str "report")])]])]

/-- The woKvs fixture as a workflow document. -/
def woWorkflow : Json := .obj woKvs

/-- A workspace probe reporting report and report_2 as existing under
/ws/out and every other path as free. -/
def c8Probe2 : String → Bool := fun p => p = "/ws/out/report" || p = "/ws/out/report_2"

/-- The single step of c8Workflow as a raw field list. -/
def c8Step : List (String × Json) :=
  [("step_name", .str "S"), ("app", .str "Date"),
   ("params", .obj [("output_path", .str "/ws/out"),
     ("output_file", .str "report")])]

/-- The fields of a persisted planned workflow document (the save path of
register_workflow and plan_workflow always writes workflow_id). -/
def plannedDocFields : List (String × Json) :=
  [("workflow_id", .str "wf_1700000000000_1234"),
   ("workflow_name", .str "planned"), ("version", .str "1.0"),
   ("status", .str "planned"),
   ("base_context", .obj [("base_url", .str "https://bv-brc.org"),
     ("workspace_output_folder", .str "/ws/out")]),
   ("steps", .arr
     [.obj [("step_name", .str "A"), ("app", .str "Date"), ("params", .obj []),
        ("status", .str "planned")]])]

/-! ## Theorems -/

/-- Helper: folding markStepRunning over a list grows the running set by
at most the list length. -/
theorem card_foldl_markStepRunning (l : List String) (c : ExecCtx) :
    ((l.foldl markStepRunning c).runningSteps.card ≤ c.runningSteps.card + l.length) := by
  induction l generalizing c with
  | nil => simp
  | cons a t ih =>
      have h1 : (markStepRunning c a).runningSteps.card ≤ c.runningSteps.card + 1 :=
        Finset.card_insert_le _ _
      calc ((a :: t).foldl markStepRunning c).runningSteps.card
          = ((t.foldl markStepRunning (markStepRunning c a)).runningSteps.card) := by
            simp [List.foldl_cons]
        _ ≤ (markStepRunning c a).runningSteps.card + t.length := ih _
        _ ≤ (c.runningSteps.card + 1) + t.length := by omega
        _ = c.runningSteps.card + (a :: t).length := by simp; omega

/-- C4: per workflow the number of running steps never exceeds
max_parallel_steps: the submission loop takes at most
capacity() = max(0, max_parallel_steps - running) entries from the ready
list and marks each one running, so the bound is preserved. -/
theorem submitReadySteps_respects_max_parallel (ctx : ExecCtx) (ready : List String)
    (h : ctx.runningSteps.card ≤ ctx.maxParallelSteps) :
    (submitReadySteps ctx ready).runningSteps.card ≤ ctx.maxParallelSteps := by
  unfold submitReadySteps
  by_cases hc : getCapacity ctx = 0
  · simpa [hc] using h
  · simp only [hc, if_false]
    have hlen : (ready.take (getCapacity ctx)).length ≤ getCapacity ctx := by
      simp
    have := card_foldl_markStepRunning (ready.take (getCapacity ctx)) ctx
    have hcap : getCapacity ctx = ctx.maxParallelSteps - ctx.runningSteps.card := rfl
    omega

/-- Witness for submitReadySteps_respects_max_parallel at a concrete
context with capacity 2 and three ready steps. -/
theorem submitReadySteps_respects_max_parallel_witness :
    ((∅ : Finset String).card ≤ 2) ∧
    (submitReadySteps ⟨∅, 2⟩ ["s1", "s2", "s3"]).runningSteps.card ≤ 2 :=
  ⟨by decide, submitReadySteps_respects_max_parallel ⟨∅, 2⟩ ["s1", "s2", "s3"] (by decide)⟩

/-- Helper: a step list cannot be all-succeeded and contain a failed step. -/
theorem not_succeeded_and_failed (l : List String)
    (hs : hasWorkflowSucceeded l = true) (hf : hasWorkflowFailed l = true) : False := by
  unfold hasWorkflowSucceeded at hs
  unfold hasWorkflowFailed at hf
  rw [List.all_eq_true] at hs
  rw [List.any_eq_true] at hf
  obtain ⟨x, hx, hxf⟩ := hf
  have := hs x hx
  simp at hxf this
  rw [hxf] at this
  exact absurd this (by decide)

/-- C2 counterexample: with one failed and one still-running step the
tick writes the terminal status failed although not every step is in a
terminal state, refuting the claim that terminal workflow statuses are
written only when all steps are terminal. -/
theorem processWorkflowDecision_failed_while_running :
    processWorkflowDecision ["failed", "running"] "running" = some "failed" ∧
    isWorkflowComplete ["failed", "running"] = false := by
  constructor <;> rfl

/-- C2 amended: the tick retires a workflow to succeeded exactly when it
is not cancelled and all steps are succeeded, and to failed exactly when
it is not cancelled, some step is failed, and either all steps are
terminal or the stored status is not already failed; in particular a
single failed step retires the workflow even while other steps run, and
an all-terminal workflow whose non-succeeded steps are only
upstream_failed or skipped is never retired. -/
theorem processWorkflowDecision_characterization (stepStatuses : List String) (wfStatus : String) :
    (processWorkflowDecision stepStatuses wfStatus = some "succeeded" ↔
      (wfStatus ≠ "cancelled" ∧ isWorkflowComplete stepStatuses = true ∧
        hasWorkflowSucceeded stepStatuses = true)) ∧
    (processWorkflowDecision stepStatuses wfStatus = some "failed" ↔
      (wfStatus ≠ "cancelled" ∧ hasWorkflowFailed stepStatuses = true ∧
        (isWorkflowComplete stepStatuses = true ∨ wfStatus ≠ "failed"))) := by
  unfold processWorkflowDecision
  by_cases hcanc : wfStatus = "cancelled"
  · simp [hcanc]
  · by_cases hcomp : isWorkflowComplete stepStatuses = true
    · by_cases hsucc : hasWorkflowSucceeded stepStatuses = true
      · have hnf : ¬ hasWorkflowFailed stepStatuses = true := fun hf =>
          not_succeeded_and_failed stepStatuses hsucc hf
        simp [hcanc, hcomp, hsucc, hnf]
      · by_cases hfail : hasWorkflowFailed stepStatuses = true
        · simp [hcanc, hcomp, hsucc, hfail]
        · simp [hcanc, hcomp, hsucc, hfail]
    · by_cases hfail : hasWorkflowFailed stepStatuses = true
      · by_cases hst : wfStatus = "failed"
        · simp [hcanc, hcomp, hfail, hst]
        · simp [hcanc, hcomp, hfail, hst]
      · simp [hcanc, hcomp, hfail]

/-- Helper: binding an ok value applies the continuation. -/
theorem exceptBind_ok {α β : Type} (a : α) (f : α → Except String β) :
    (Except.ok a >>= f) = f a := rfl

/-- Helper: binding an error short-circuits. -/
theorem exceptBind_error {α β : Type} (e : String) (f : α → Except String β) :
    ((Except.error e : Except String α) >>= f) = .error e := rfl

/-- Helper: a bind fails when the continuation always fails. -/
theorem exceptOk_bind_false {α β : Type} (x : Except String α) (f : α → Except String β)
    (h : ∀ a, exceptOk (f a) = false) : exceptOk (x >>= f) = false := by
  cases x with
  | error e => rfl
  | ok a => exact h a

/-- Helper: a bind fails when its first stage fails. -/
theorem exceptOk_bind_false_left {α β : Type} (x : Except String α) (f : α → Except String β)
    (h : exceptOk x = false) : exceptOk (x >>= f) = false := by
  cases x with
  | error e => rfl
  | ok a => simp [exceptOk] at h

/-- Helper: a step object with a key outside the declared fields fails
the WorkflowStep schema. -/
theorem parseWorkflowStep_unknown_key (stepKvs : List (String × Json)) (k : String)
    (hk : k ∈ Json.keysOf stepKvs) (hnot : k ∉ workflowStepFields) :
    exceptOk (parseWorkflowStep (.obj stepKvs)) = false := by
  have hcond : ¬ (∀ a ∈ Json.keysOf stepKvs, a ∈ workflowStepFields) :=
    fun hall => hnot (hall k hk)
  simp [parseWorkflowStep, Json.asObj, exceptBind_ok, hcond, exceptOk]

/-- Helper: mapM over Except fails when any element fails. -/
theorem mapM_error_of_mem {α β : Type} (f : α → Except String β) (l : List α)
    (x : α) (hx : x ∈ l) (he : exceptOk (f x) = false) (acc : List β) :
    exceptOk (List.mapM.loop f l acc) = false := by
  induction l generalizing acc with
  | nil => simp at hx
  | cons a rest ih =>
      rcases List.mem_cons.mp hx with h | h
      · subst h
        cases hfa : f x with
        | error e => simp [List.mapM.loop, hfa, exceptBind_error, exceptOk]
        | ok b => rw [hfa] at he; simp [exceptOk] at he
      · cases hfa : f a with
        | error e => simp [List.mapM.loop, hfa, exceptBind_error, exceptOk]
        | ok b =>
            simp only [List.mapM.loop, hfa, exceptBind_ok]
            exact ih h _

/-- C10: the pydantic schema forbids unknown fields rather than silently
dropping them: a top-level key outside the WorkflowDefinition fields
fails construction, a step key outside the WorkflowStep fields fails
construction of the containing workflow, and base_context accepts
arbitrary extra keys. -/
theorem schema_forbids_unknown_fields :
    (∀ (kvs : List (String × Json)) (k : String),
        k ∈ Json.keysOf kvs → k ∉ workflowTopLevelFields →
        exceptOk (parseWorkflowDefinition (.obj kvs)) = false) ∧
    (∀ (kvs : List (String × Json)) (stepsList : List Json)
        (stepKvs : List (String × Json)) (k : String),
        Json.lookupKey kvs "steps" = some (.arr stepsList) →
        Json.obj stepKvs ∈ stepsList →
        k ∈ Json.keysOf stepKvs → k ∉ workflowStepFields →
        exceptOk (parseWorkflowDefinition (.obj kvs)) = false) ∧
    (∀ (u w : String) (extras : List (String × Json)),
        exceptOk (parseBaseContext (.obj
          (("base_url", Json.str u) :: ("workspace_output_folder", Json.str w)
            :: extras))) = true) := by
  refine ⟨?_, ?_, ?_⟩
  · intro kvs k hk hnot
    have hcond : ¬ (∀ a ∈ Json.keysOf kvs, a ∈ workflowTopLevelFields) :=
      fun hall => hnot (hall k hk)
    simp [parseWorkflowDefinition, Json.asObj, exceptBind_ok, hcond, exceptOk]
  · intro kvs stepsList stepKvs k hsteps hmem hk hnot
    have hbad : exceptOk (parseWorkflowStep (.obj stepKvs)) = false :=
      parseWorkflowStep_unknown_key stepKvs k hk hnot
    by_cases hcond : ∀ a ∈ Json.keysOf kvs, a ∈ workflowTopLevelFields
    · simp only [parseWorkflowDefinition, Json.asObj, exceptBind_ok]
      rw [if_pos]
      · refine exceptOk_bind_false _ _ (fun v1 => ?_)
        refine exceptOk_bind_false _ _ (fun wn => ?_)
        refine exceptOk_bind_false _ _ (fun v2 => ?_)
        refine exceptOk_bind_false _ _ (fun ver => ?_)
        refine exceptOk_bind_false _ _ (fun v3 => ?_)
        refine exceptOk_bind_false _ _ (fun bc => ?_)
        have hgr : getReq kvs "steps" = Except.ok (Json.arr stepsList) := by
          simp [getReq, hsteps]
        rw [hgr, exceptBind_ok]
        have hasArr : Json.asArr (Json.arr stepsList) = Except.ok stepsList := rfl
        rw [hasArr, exceptBind_ok]
        refine exceptOk_bind_false_left _ _ ?_
        show exceptOk (List.mapM.loop parseWorkflowStep stepsList []) = false
        exact mapM_error_of_mem parseWorkflowStep stepsList _ hmem hbad []
      · simpa using hcond
    · simp [parseWorkflowDefinition, Json.asObj, exceptBind_ok, hcond, exceptOk]
  · intro u w extras
    rfl

/-- Witness for schema_forbids_unknown_fields: a bogus top-level key, a
step with an undeclared key, and a base_context with an extra key. -/
theorem schema_forbids_unknown_fields_witness :
    (exceptOk (parseWorkflowDefinition (.obj
      [("workflow_name", Json.str "w"), ("bogus", Json.null)])) = false) ∧
    (exceptOk (parseWorkflowDefinition (.obj
      [("steps", Json.arr [Json.obj
        [("step_name", Json.str "s1"), ("frobnicate", Json.null)]])])) = false) ∧
    (exceptOk (parseBaseContext (.obj
      (("base_url", Json.str "http://x") :: ("workspace_output_folder", Json.str "/ws")
        :: [("team", Json.str "bv")]))) = true) :=
  ⟨schema_forbids_unknown_fields.1 _ "bogus" (by decide) (by decide),
   schema_forbids_unknown_fields.2.1 _ [Json.obj
      [("step_name", Json.str "s1"), ("frobnicate", Json.null)]]
     [("step_name", Json.str "s1"), ("frobnicate", Json.null)] "frobnicate"
     rfl (List.Mem.head _) (by decide) (by decide),
   schema_forbids_unknown_fields.2.2 "http://x" "/ws" [("team", Json.str "bv")]⟩

/-- Helper: membership in an addToSet result. -/
theorem mem_addToSet_iff (x t : String) (l : List String) :
    x ∈ addToSet t l ↔ x ∈ l ∨ x = t := by
  unfold addToSet
  split
  · rename_i ht
    constructor
    · exact fun hx => Or.inl hx
    · rintro (hx | hx)
      · exact hx
      · exact hx ▸ ht
  · simp

/-- Helper: membership in a pullFromList result. -/
theorem mem_pullFromList_iff (x t : String) (l : List String) :
    x ∈ pullFromList t l ↔ x ∈ l ∧ x ≠ t := by
  simp [pullFromList, List.mem_filter]

/-- Helper: step-id membership is unchanged by adding a foreign task id. -/
theorem stepIdRunning_addToSet {st : PStep} {tid : String} {running : List String}
    (h : st.stepId ≠ some tid) :
    (stepIdRunning st (addToSet tid running) ↔ stepIdRunning st running) := by
  unfold stepIdRunning
  cases hsi : st.stepId with
  | none => exact Iff.rfl
  | some x =>
      have hx : x ≠ tid := fun hxe => h (by rw [hsi, hxe])
      show x ∈ addToSet tid running ↔ x ∈ running
      rw [mem_addToSet_iff]
      simp [hx]

/-- Helper: step-id membership is unchanged by pulling a foreign task id. -/
theorem stepIdRunning_pull {st : PStep} {tid : String} {running : List String}
    (h : st.stepId ≠ some tid) :
    (stepIdRunning st (pullFromList tid running) ↔ stepIdRunning st running) := by
  unfold stepIdRunning
  cases hsi : st.stepId with
  | none => exact Iff.rfl
  | some x =>
      have hx : x ≠ tid := fun hxe => h (by rw [hsi, hxe])
      show x ∈ pullFromList tid running ↔ x ∈ running
      rw [mem_pullFromList_iff]
      simp [hx]

/-- Helper: members of an updateFirstBy result are old members or the
image of an old member. -/
theorem mem_updateFirstBy {p : PStep → Prop} [DecidablePred p] {f : PStep → PStep}
    {l : List PStep} {st : PStep}
    (h : st ∈ updateFirstBy p f l) : st ∈ l ∨ ∃ s0, s0 ∈ l ∧ st = f s0 := by
  induction l with
  | nil => simp [updateFirstBy] at h
  | cons a rest ih =>
      unfold updateFirstBy at h
      by_cases hp : p a
      · simp [hp] at h
        rcases h with h | h
        · exact Or.inr ⟨a, by simp, h⟩
        · exact Or.inl (by simp [h])
      · simp [hp] at h
        rcases h with h | h
        · exact Or.inl (by simp [h])
        · rcases ih h with h' | ⟨s0, hs0, he⟩
          · exact Or.inl (by simp [h'])
          · exact Or.inr ⟨s0, by simp [hs0], he⟩

/-- Helper: invariant I4 survives the scheduler submission write, because
the freshly generated task id is both appended to the running set and
assigned to the step being marked running. -/
theorem submit_aux (n tid : String) (running : List String) (l : List PStep)
    (hIff : ∀ st ∈ l, (st.status = "running" ↔ stepIdRunning st running))
    (hfresh : ∀ st ∈ l, st.stepId ≠ some tid) :
    ∀ st ∈ updateFirstBy (fun s => s.name = n)
        (fun s => { s with status := "running", stepId := some tid }) l,
      (st.status = "running" ↔ stepIdRunning st (addToSet tid running)) := by
  induction l with
  | nil => intro st hst; simp [updateFirstBy] at hst
  | cons a rest ih =>
      intro st hst
      unfold updateFirstBy at hst
      by_cases hp : a.name = n
      · simp [hp] at hst
        rcases hst with h | h
        · subst h
          simp only [stepIdRunning]
          rw [mem_addToSet_iff]
          simp
        · have hne := hfresh st (by simp [h])
          rw [stepIdRunning_addToSet hne]
          exact hIff st (by simp [h])
      · simp [hp] at hst
        rcases hst with h | h
        · subst h
          rw [stepIdRunning_addToSet (hfresh st (by simp))]
          exact hIff st (by simp)
        · exact ih (fun s hs => hIff s (by simp [hs])) (fun s hs => hfresh s (by simp [hs])) st h

/-- Helper: invariant I4 survives marking the step of a finished task
terminal and pulling its id from the running set. -/
theorem terminalize_aux (tid newStatus : String) (hns : newStatus ≠ "running")
    (running : List String) (l : List PStep)
    (hIff : ∀ st ∈ l, (st.status = "running" ↔ stepIdRunning st running))
    (hUniq : l.Pairwise StepIdDistinct) :
    ∀ st ∈ updateFirstBy (fun s => s.stepId = some tid)
        (fun s => { s with status := newStatus }) l,
      (st.status = "running" ↔ stepIdRunning st (pullFromList tid running)) := by
  induction l with
  | nil => intro st hst; simp [updateFirstBy] at hst
  | cons a rest ih =>
      rcases List.pairwise_cons.mp hUniq with ⟨ha, hrest⟩
      intro st hst
      unfold updateFirstBy at hst
      by_cases hp : a.stepId = some tid
      · simp [hp] at hst
        rcases hst with h | h
        · subst h
          simp only [stepIdRunning, hp]
          rw [mem_pullFromList_iff]
          simp [hns]
        · have hne : st.stepId ≠ some tid := ha st (by simp [h]) tid hp
          rw [stepIdRunning_pull hne]
          exact hIff st (by simp [h])
      · simp [hp] at hst
        rcases hst with h | h
        · subst h
          rw [stepIdRunning_pull hp]
          exact hIff st (by simp)
        · exact ih (fun s hs => hIff s (by simp [hs])) hrest st h

/-- Helper: pairwise distinct step ids survive a status-only positional
update. -/
theorem uniq_updateFirstBy_id_preserving (p : PStep → Prop) [DecidablePred p]
    (f : PStep → PStep)
    (hf : ∀ s, (f s).stepId = s.stepId) {l : List PStep}
    (h : l.Pairwise StepIdDistinct) : (updateFirstBy p f l).Pairwise StepIdDistinct := by
  induction l with
  | nil => exact List.Pairwise.nil
  | cons a rest ih =>
      rcases List.pairwise_cons.mp h with ⟨ha, hrest⟩
      unfold updateFirstBy
      by_cases hp : p a
      · rw [if_pos hp]
        refine List.pairwise_cons.mpr ⟨?_, hrest⟩
        intro b hb tidv he
        exact ha b hb tidv (by rw [hf a] at he; exact he)
      · rw [if_neg hp]
        refine List.pairwise_cons.mpr ⟨?_, ih hrest⟩
        intro b hb tidv he
        rcases mem_updateFirstBy hb with hbl | ⟨b0, hb0, hbe⟩
        · exact ha b hbl tidv he
        · have := ha b0 hb0 tidv he
          rw [hbe, hf b0]
          exact this

/-- Helper: pairwise distinct step ids survive assigning a fresh task id. -/
theorem uniq_after_submit (n tid : String) {l : List PStep}
    (hfresh : ∀ st ∈ l, st.stepId ≠ some tid)
    (h : l.Pairwise StepIdDistinct) :
    (updateFirstBy (fun s => s.name = n)
      (fun s => { s with status := "running", stepId := some tid }) l).Pairwise StepIdDistinct := by
  induction l with
  | nil => simp [updateFirstBy]
  | cons a rest ih =>
      rcases List.pairwise_cons.mp h with ⟨ha, hrest⟩
      unfold updateFirstBy
      by_cases hp : a.name = n
      · rw [if_pos hp]
        refine List.pairwise_cons.mpr ⟨?_, hrest⟩
        intro b hb tidv he
        have htv : tid = tidv := by simpa using he
        rw [← htv]
        exact hfresh b (by simp [hb])
      · rw [if_neg hp]
        refine List.pairwise_cons.mpr ⟨?_, ih (fun s hs => hfresh s (by simp [hs])) hrest⟩
        intro b hb tidv he
        rcases mem_updateFirstBy hb with hbl | ⟨b0, hb0, hbe⟩
        · exact ha b hbl tidv he
        · rw [hbe]
          intro hcontra
          have htv : tid = tidv := by simpa using hcontra
          exact hfresh a (by simp) (by rw [htv]; exact he)

/-- Combined invariant: I4 together with pairwise distinct step ids. -/
def StateInv (s : PState) : Prop := RunningIff s ∧ UniqueStepIds s

/-- Helper: every scheduler-backed persistence action preserves the
running-set invariant. -/
theorem applyOp_preserves_inv {op : ExecOp} {s : PState}
    (hg : SchedGuard op s) (hinv : StateInv s) : StateInv (applyOp op s) := by
  obtain ⟨hIff, hUniq⟩ := hinv
  cases op with
  | submitSched n tid =>
      obtain ⟨_, hfresh⟩ := hg
      exact ⟨submit_aux n tid s.runningIds s.steps hIff hfresh,
        uniq_after_submit n tid hfresh hUniq⟩
  | completeSched tid =>
      exact ⟨terminalize_aux tid "succeeded" (by decide) s.runningIds s.steps hIff hUniq,
        uniq_updateFirstBy_id_preserving (fun st => st.stepId = some tid)
          (fun st => { st with status := "succeeded" }) (fun _ => rfl) hUniq⟩
  | failSched tid =>
      exact ⟨terminalize_aux tid "failed" (by decide) s.runningIds s.steps hIff hUniq,
        uniq_updateFirstBy_id_preserving (fun st => st.stepId = some tid)
          (fun st => { st with status := "failed" }) (fun _ => rfl) hUniq⟩
  | createGroupRun n lid => exact hg.elim
  | createGroupComplete lid => exact hg.elim
  | createGroupFail lid => exact hg.elim

/-- Helper: the invariant holds along every scheduler-backed execution. -/
theorem schedReachable_inv {s0 s : PState} (h0 : StateInv s0)
    (h : SchedReachable s0 s) : StateInv s := by
  induction h with
  | refl => exact h0
  | step op _ hg ih => exact applyOp_preserves_inv hg ih

/-- Helper: a list of steps with no assigned ids has pairwise distinct ids. -/
theorem pairwise_distinct_of_no_ids {l : List PStep}
    (h : ∀ st ∈ l, st.stepId = none) : l.Pairwise StepIdDistinct := by
  induction l with
  | nil => exact List.Pairwise.nil
  | cons a rest ih =>
      refine List.pairwise_cons.mpr ⟨?_, ih (fun st hst => h st (by simp [hst]))⟩
      intro b _ tidv he
      rw [h a (by simp)] at he
      exact absurd he (by simp)

/-- Helper: a freshly submitted document satisfies the invariant. -/
theorem freshly_submitted_inv {s : PState} (h : FreshlySubmitted s) : StateInv s := by
  obtain ⟨hrun, hsteps⟩ := h
  constructor
  · intro st hst
    obtain ⟨hstat, hid⟩ := hsteps st hst
    rw [hstat, hrun]
    simp [stepIdRunning, hid]
  · exact pairwise_distinct_of_no_ids (fun st hst => (hsteps st hst).2)

/-- C3 counterexample: the CreateGroup handler persists status=running
for its step without calling add_to_running_steps, so a reachable
persisted state has a running step whose step_id is not a member of
currently_running_step_ids, refuting invariant I4 as claimed for
in-process steps. -/
theorem createGroup_breaks_running_iff :
    FreshlySubmitted cgInitState ∧ ExecReachable cgInitState cgRunState ∧
      ¬ RunningIff cgRunState :=
  ⟨by decide, ExecReachable.createGroupRun _ _ (ExecReachable.refl _), by decide⟩

/-- C3 amended: the running-set equivalence holds in every persisted
state reachable from a freshly submitted workflow through
scheduler-backed persistence actions (submission with a fresh task id,
completion, failure); the CreateGroup handler is the exception shown in
the counterexample. -/
theorem sched_reachable_running_iff {s0 s : PState}
    (hinit : FreshlySubmitted s0) (hreach : SchedReachable s0 s) :
    RunningIff s :=
  (schedReachable_inv (freshly_submitted_inv hinit) hreach).1

/-- Witness for sched_reachable_running_iff: one pending step submitted
to the scheduler with fresh task id t1. -/
theorem sched_reachable_running_iff_witness :
    FreshlySubmitted ⟨[⟨"a", "pending", none⟩], []⟩ ∧
    RunningIff (applyOp (.submitSched "a" "t1") ⟨[⟨"a", "pending", none⟩], []⟩) :=
  ⟨by decide, sched_reachable_running_iff (by decide)
    (SchedReachable.step _ (SchedReachable.refl _) ⟨by decide, by decide⟩)⟩

/-- C7: cancelling twice is idempotent on the persisted status: a first
cancel of a non-terminal workflow stores cancelled, and a second cancel
(rejected with HTTP 400 because cancelled is terminal) leaves the stored
status cancelled, the same final outcome. -/
theorem cancel_twice_idempotent (status : String)
    (h : status ∉ cancelTerminalStatuses) :
    statusAfterCancel status = "cancelled" ∧
    statusAfterCancel (statusAfterCancel status) = "cancelled" := by
  have h1 : statusAfterCancel status = "cancelled" := by
    unfold statusAfterCancel cancelWorkflow
    simp [h]
  refine ⟨h1, ?_⟩
  rw [h1]
  rfl

/-- C9: a two-step workflow where step a depends on b and step b depends
on a is rejected by the dependency DFS with precisely the error message
naming both nodes of the cycle: Circular dependency detected, a to b to a. -/
theorem circular_dependency_two_cycle (a b : String) (h : a ≠ b) :
    checkCircularDependencies [(a, [b]), (b, [a])] =
      .error ("Circular dependency detected: " ++ String.intercalate " -> " [a, b, a]) := by
  have h' : b ≠ a := Ne.symm h
  simp [checkCircularDependencies, buildDepGraph, dfsForest, dfsFuel, dfsVisit,
    dfsVisit.neighborLoop, graphNeighbors, addToSet, pullFromList, pyIndexOf, h, h']

/-- Witness for circular_dependency_two_cycle at the concrete step names
A and B, with the literal message of the spec scenario. -/
theorem circular_dependency_two_cycle_witness :
    ("A" : String) ≠ "B" ∧
    checkCircularDependencies [("A", ["B"]), ("B", ["A"])] =
      .error "Circular dependency detected: A -> B -> A" :=
  ⟨by decide, by rw [circular_dependency_two_cycle "A" "B" (by decide)]; rfl⟩

/-- Witness for cancel_twice_idempotent at the status running. -/
theorem cancel_twice_idempotent_witness :
    ("running" ∉ cancelTerminalStatuses) ∧
    (statusAfterCancel "running" = "cancelled" ∧
      statusAfterCancel (statusAfterCancel "running") = "cancelled") :=
  ⟨by decide, cancel_twice_idempotent "running" (by decide)⟩

/-! ### C1: submit_planned_workflow on a planned document -/

/-- Filtering a key-value list by a blocklist keeps every key outside the
blocklist. -/
theorem hasKey_filter_of_not_blocked (l : List (String × Json)) (k : String)
    (blocked : List String) (hk : Json.hasKey l k = true) (hnb : k ∉ blocked) :
    Json.hasKey (l.filter (fun kv => kv.1 ∉ blocked)) k = true := by
  induction l with
  | nil => simp [Json.hasKey] at hk
  | cons a rest ih =>
      unfold Json.hasKey at hk
      rw [List.filter_cons]
      by_cases hb : a.1 ∉ blocked
      · rw [if_pos (by simpa using hb)]
        unfold Json.hasKey
        rcases Bool.or_eq_true_iff.mp hk with h | h
        · simp [h]
        · rw [ih h]
          simp
      · rw [if_neg (by simpa using hb)]
        rcases Bool.or_eq_true_iff.mp hk with h | h
        · have hka : a.1 = k := by simpa using h
          exact absurd (hka ▸ (not_not.mp (by simpa using hb))) hnb
        · exact ih h

/-- A key-preserving map over a key-value list preserves hasKey. -/
theorem hasKey_map_keyed (l : List (String × Json)) (f : String × Json → Json)
    (k : String) :
    Json.hasKey (l.map (fun kv => (kv.1, f kv))) k = Json.hasKey l k := by
  induction l with
  | nil => rfl
  | cons a rest ih =>
      unfold Json.hasKey
      rw [List.map_cons]
      simp only []
      rw [ih]

/-- C1: submit_planned_workflow never reaches the success path for a
planned document. The sanitizer _sanitize_workflow_for_validation keeps
workflow_id (its blocklist omits it on purpose), but the re-run
validate_workflow_input rejects any document carrying workflow_id, so for
every persisted workflow whose status is planned and that carries a
workflow_id (the save path always writes one) the submit errors instead
of stripping runtime fields, recompiling and moving the status to
pending. -/
theorem submitPlanned_planned_always_errors (impls : ValidatorImpls)
    (env : String → Option String) (workspace : Option (String → Bool))
    (kvs : List (String × Json)) (wid : String)
    (hstatus : Json.lookupKey kvs "status" = some (.str "planned"))
    (hid : Json.hasKey kvs "workflow_id" = true) :
    submitPlannedWorkflow impls env workspace (some (.obj kvs)) wid =
      .error "Input workflow should not contain 'workflow_id'. IDs are assigned by the scheduler." := by
  have hkey : Json.hasKey
      ((kvs.filter (fun kv => kv.1 ∉ sanitizedTopLevelFields)).map (fun kv =>
        (kv.1,
          if kv.1 = "steps" then
            match kv.2 with
            | .arr steps =>
                Json.arr (steps.map (fun stJson =>
                  match stJson with
                  | .obj st => Json.obj (st.filter (fun skv => skv.1 ∉ sanitizedStepFields))
                  | other => other))
            | other => other
          else kv.2))) "workflow_id" = true := by
    rw [hasKey_map_keyed]
    exact hasKey_filter_of_not_blocked kvs "workflow_id" sanitizedTopLevelFields hid
      (by decide)
  simp only [submitPlannedWorkflow, statusIs, hstatus]
  norm_num
  simp only [sanitizeWorkflowForValidation, validateWorkflowInput, hkey, if_true]
  rw [if_neg (by decide)]

/-- Witness for submitPlanned_planned_always_errors on the concrete
planned document fixture. -/
theorem submitPlanned_planned_always_errors_witness :
    Json.lookupKey plannedDocFields "status" = some (.str "planned") ∧
    Json.hasKey plannedDocFields "workflow_id" = true ∧
    submitPlannedWorkflow trivialImpls noEnv none (some (.obj plannedDocFields))
      "wf_1700000000000_1234" =
      .error "Input workflow should not contain 'workflow_id'. IDs are assigned by the scheduler." :=
  ⟨rfl, rfl, submitPlanned_planned_always_errors trivialImpls noEnv none plannedDocFields
    "wf_1700000000000_1234" rfl rfl⟩

/-! ### C5: undeclared output keys in step output references -/

/-- Pass 3 of the resolver fails whenever the workflow_outputs list holds
a reference to a declared step whose outputs lack the referenced key. -/
theorem resolveWoLoop_error_of_bad_entry
    (stepOutputsMap : List (String × Json)) (values : List Json)
    (s X Y : String) (outs : List (String × Json))
    (hmem : Json.str s ∈ values)
    (hmatch : matchStepOutputRef s = some (X, Y))
    (hX : Json.lookupKey stepOutputsMap X = some (.obj outs))
    (hY : Json.lookupKey outs Y = none) :
    ∀ i, ∃ e, resolveWoLoop stepOutputsMap i values = .error e := by
  induction values with
  | nil => cases hmem
  | cons v rest ih =>
      intro i
      rcases List.mem_cons.mp hmem with hv | hrest
      · subst hv
        simp only [resolveWoLoop, resolveStepOutputRef, hmatch, hX, hY]
        exact ⟨_, rfl⟩
      · unfold resolveWoLoop
        cases hr : resolveStepOutputRef stepOutputsMap v
            ("workflow_outputs[" ++ toString i ++ "]") with
        | error e => exact ⟨e, rfl⟩
        | ok v' =>
            obtain ⟨e, he⟩ := ih hrest (i + 1)
            exact ⟨e, by rw [he]; rfl⟩

/-- C5 counterexample: the reference steps A outputs missing inside step
B's params names the declared step A, whose outputs hold only the key
out, yet the full compile pipeline accepts the workflow and leaves the
reference in place untouched - no compile error is raised for undeclared
output keys referenced from step params. -/
theorem undeclared_output_ref_in_params_compiles :
    exceptOk (compileWorkflow trivialImpls noEnv none refWorkflow) = true ∧
    matchStepOutputRef "${steps.A.outputs.missing}" = some ("A", "missing") ∧
    (match compileWorkflow trivialImpls noEnv none refWorkflow with
      | .ok wf => wf.steps.map (fun s => Json.lookupKey s.params "x")
      | .error _ => []) = [none, some (.str "${steps.A.outputs.missing}")] ∧
    (match compileWorkflow trivialImpls noEnv none refWorkflow with
      | .ok wf => wf.steps.map (fun s => s.outputs)
      | .error _ => []) = [some [("out", "fileA")], none] :=
  ⟨by rfl, by rfl, by rfl, by rfl⟩

/-- C5: references to an undeclared output key Y of a declared step X
are a compile error only when they appear in workflow_outputs: pass 3 of
the resolver fails on any such entry (first conjunct, for every step
outputs map and list of values), and on the concrete woWorkflow fixture
the whole compile pipeline reports exactly the resolver message naming
the missing key (second conjunct); the same reference inside a step's
params or outputs is accepted (see the counterexample). -/
theorem workflow_outputs_undeclared_key_errors :
    (∀ (stepOutputsMap : List (String × Json)) (values : List Json)
        (s X Y : String) (outs : List (String × Json)),
      Json.str s ∈ values →
      matchStepOutputRef s = some (X, Y) →
      Json.lookupKey stepOutputsMap X = some (.obj outs) →
      Json.lookupKey outs Y = none →
      ∀ i, ∃ e, resolveWoLoop stepOutputsMap i values = .error e) ∧
    (∀ (impls : ValidatorImpls) (env : String → Option String)
        (workspace : Option (String → Bool)),
      compileWorkflow impls env workspace woWorkflow =
        .error ("Cannot resolve step reference '" ++ varToken "${steps.A.outputs.missing}" ++
          "' in workflow_outputs[0]. Output 'missing' not found in step 'A' outputs.")) :=
  ⟨resolveWoLoop_error_of_bad_entry, fun _ _ _ => by rfl⟩

/-- Witness for workflow_outputs_undeclared_key_errors on the concrete
single-step outputs map and the woWorkflow fixture. -/
theorem workflow_outputs_undeclared_key_errors_witness :
    (∃ e, resolveWoLoop [("A", .obj [("out", .str "fileA")])] 0
      [.str "${steps.A.outputs.missing}"] = .error e) ∧
    compileWorkflow trivialImpls noEnv none woWorkflow =
      .error ("Cannot resolve step reference '" ++ varToken "${steps.A.outputs.missing}" ++
        "' in workflow_outputs[0]. Output 'missing' not found in step 'A' outputs.") :=
  ⟨workflow_outputs_undeclared_key_errors.1 [("A", .obj [("out", .str "fileA")])]
      [.str "${steps.A.outputs.missing}"] "${steps.A.outputs.missing}" "A" "missing"
      [("out", .str "fileA")] (List.Mem.head _) rfl rfl rfl 0,
   workflow_outputs_undeclared_key_errors.2 trivialImpls noEnv none⟩

/-! ### C6: duplicate step names -/

/-- C6 counterexample: the dupWorkflow fixture holds two steps that share
the step_name A, its step-name list is not nodup, yet the full compile
pipeline (cleanup, resolver, schema validation and all later checks)
accepts it. -/
theorem duplicate_step_names_compile :
    exceptOk (compileWorkflow trivialImpls noEnv none dupWorkflow) = true ∧
    (match compileWorkflow trivialImpls noEnv none dupWorkflow with
      | .ok wf => wf.steps.map (fun s => s.step_name)
      | .error _ => []) = ["A", "A"] ∧
    ¬ (["A", "A"] : List String).Nodup :=
  ⟨by rfl, by rfl, by decide⟩

/-- C6: no stage of the compile pipeline checks step_name uniqueness:
for every validator implementation and environment, the two-steps-named-A
fixture compiles to a workflow definition whose step-name list is
precisely A, A and in particular not pairwise distinct. -/
theorem duplicate_step_names_accepted (impls : ValidatorImpls)
    (env : String → Option String) :
    ∃ wf, compileWorkflow impls env none dupWorkflow = .ok wf ∧
      wf.steps.map (fun s => s.step_name) = ["A", "A"] ∧
      ¬ (wf.steps.map (fun s => s.step_name)).Nodup :=
  ⟨_, by rfl, by rfl, by decide⟩

/-! ### C8: output deconfliction -/

/-- The numbered-candidate loop returns the first free candidate: if k is
free, all earlier attempted candidates are busy and k is within range,
the loop answers base_k. -/
theorem generateUniqueLoop_spec (probe : String → Bool) (outputPath baseName : String) :
    ∀ remaining attempt k, attempt ≤ k → k < attempt + remaining →
      (¬ checkOutputExists probe outputPath (baseName ++ "_" ++ toString k)) →
      (∀ j, attempt ≤ j → j < k →
        checkOutputExists probe outputPath (baseName ++ "_" ++ toString j)) →
      generateUniqueLoop probe outputPath baseName attempt remaining =
        some (baseName ++ "_" ++ toString k) := by
  intro remaining
  induction remaining with
  | zero => intro attempt k hle hlt; omega
  | succ rem ih =>
      intro attempt k hle hlt hfree hbusy
      unfold generateUniqueLoop
      by_cases hcur : checkOutputExists probe outputPath (baseName ++ "_" ++ toString attempt)
      · have hne : attempt ≠ k := by
          intro hk; exact hfree (hk ▸ hcur)
        have hlt' : attempt < k := lt_of_le_of_ne hle hne
        rw [if_neg (by simpa using hcur)]
        exact ih (attempt + 1) k hlt' (by omega) hfree
          (fun j hj1 hj2 => hbusy j (by omega) hj2)
      · have hk : attempt = k := by
          by_contra hne
          exact hcur (hbusy attempt le_rfl (lt_of_le_of_ne hle hne))
        rw [if_pos (by simpa using hcur)]
        rw [hk]

/-- When every candidate in range is busy the loop exhausts its attempt
budget and returns none. -/
theorem generateUniqueLoop_none (probe : String → Bool) (outputPath baseName : String) :
    ∀ remaining attempt,
      (∀ j, attempt ≤ j → j < attempt + remaining →
        checkOutputExists probe outputPath (baseName ++ "_" ++ toString j)) →
      generateUniqueLoop probe outputPath baseName attempt remaining = none := by
  intro remaining
  induction remaining with
  | zero => intro attempt hbusy; rfl
  | succ rem ih =>
      intro attempt hbusy
      unfold generateUniqueLoop
      rw [if_neg (by simpa using hbusy attempt le_rfl (by omega))]
      exact ih (attempt + 1) (fun j hj1 hj2 => hbusy j (by omega) (by omega))

/-- check_and_resolve_conflicts catches every per-step error, leaving the
step unchanged. -/
theorem deconflictStep_unchanged_of_error (probe : String → Bool) (maxAttempts : Nat)
    (baseContext : List (String × Json)) (env : String → Option String)
    (idx : Nat) (st : List (String × Json)) (stepName : String) (e : String)
    (hrel : isRelevantStep st = true)
    (hname : Json.lookupKey st "step_name" = some (.str stepName))
    (herr : resolveStepOutputConflict probe maxAttempts baseContext env st stepName =
      .error e) :
    deconflictStep probe maxAttempts baseContext env idx (.obj st) = .obj st := by
  simp only [deconflictStep, hrel, if_true, hname]
  rw [herr]

/-- C8 counterexample: against a workspace probe that reports every path
as existing, the attempt cap is necessarily exceeded and
_generate_unique_output_name raises, yet the compile pipeline still
succeeds on the c8Workflow fixture and leaves output_file unchanged: the
cap error is swallowed by the per-step handler of
check_and_resolve_conflicts instead of failing compilation. -/
theorem attempt_cap_error_swallowed :
    exceptOk (compileWorkflow trivialImpls noEnv (some (fun _ => true)) c8Workflow) = true ∧
    generateUniqueOutputName (fun _ => true) defaultMaxOutputFileAttempts
      "report" "/ws/out" "S" =
      .error "Cannot find unique output name for step 'S' after 100 attempts" ∧
    (match compileWorkflow trivialImpls noEnv (some (fun _ => true)) c8Workflow with
      | .ok wf => wf.steps.map (fun s => Json.lookupKey s.params "output_file")
      | .error _ => []) = [some (.str "report")] :=
  ⟨by rfl, by rfl, by rfl⟩

/-- C8: the rename picks the smallest free suffix, the exhausted cap
raises inside _generate_unique_output_name, and that error never escapes
a compile: (1) if candidate base_k is free, every earlier candidate from
base_2 on is busy and k is within the attempt budget, the generator
answers base_k; (2) if every candidate in the budget is busy it errors
with the cap message; (3) check_and_resolve_conflicts catches any
per-step error and keeps the step unchanged; (4) on the concrete fixture
where report and report_2 exist, the full pipeline rewrites output_file
to report_3. -/
theorem output_deconflict_least_rename :
    (∀ (probe : String → Bool) (maxAttempts k : Nat)
        (baseName outputPath stepName : String),
      2 ≤ k → k < 2 + maxAttempts →
      ¬ checkOutputExists probe outputPath (baseName ++ "_" ++ toString k) →
      (∀ j, j < k → 2 ≤ j →
        checkOutputExists probe outputPath (baseName ++ "_" ++ toString j)) →
      generateUniqueOutputName probe maxAttempts baseName outputPath stepName =
        .ok (baseName ++ "_" ++ toString k)) ∧
    (∀ (probe : String → Bool) (maxAttempts : Nat)
        (baseName outputPath stepName : String),
      (∀ j, j < 2 + maxAttempts → 2 ≤ j →
        checkOutputExists probe outputPath (baseName ++ "_" ++ toString j)) →
      generateUniqueOutputName probe maxAttempts baseName outputPath stepName =
        .error ("Cannot find unique output name for step '" ++ stepName ++ "' after " ++
          toString maxAttempts ++ " attempts")) ∧
    (∀ (probe : String → Bool) (maxAttempts : Nat)
        (baseContext : List (String × Json)) (env : String → Option String)
        (idx : Nat) (st : List (String × Json)) (stepName e : String),
      isRelevantStep st = true →
      Json.lookupKey st "step_name" = some (.str stepName) →
      resolveStepOutputConflict probe maxAttempts baseContext env st stepName =
        .error e →
      deconflictStep probe maxAttempts baseContext env idx (.obj st) = .obj st) ∧
    (∀ (impls : ValidatorImpls) (env : String → Option String),
      (match compileWorkflow impls env (some c8Probe2) c8Workflow with
        | .ok wf => wf.steps.map (fun s => Json.lookupKey s.params "output_file")
        | .error _ => []) = [some (.str "report_3")]) := by
  refine ⟨?_, ?_, ?_, ?_⟩
  · intro probe maxAttempts k baseName outputPath stepName h2 hlt hfree hbusy
    unfold generateUniqueOutputName
    rw [generateUniqueLoop_spec probe outputPath baseName maxAttempts 2 k h2 hlt hfree
      (fun j hj1 hj2 => hbusy j hj2 hj1)]
  · intro probe maxAttempts baseName outputPath stepName hbusy
    unfold generateUniqueOutputName
    rw [generateUniqueLoop_none probe outputPath baseName maxAttempts 2
      (fun j hj1 hj2 => hbusy j hj2 hj1)]
  · intro probe maxAttempts baseContext env idx st stepName e hrel hname herr
    exact deconflictStep_unchanged_of_error probe maxAttempts baseContext env idx st
      stepName e hrel hname herr
  · intro impls env
    rfl

/-- Witness for output_deconflict_least_rename: the generator renames
report to report_3 when report and report_2 exist, errors with the cap
message when everything exists, the catching handler keeps the step
unchanged on that error, and the pipeline rewrite shows up end to end. -/
theorem output_deconflict_least_rename_witness :
    generateUniqueOutputName c8Probe2 defaultMaxOutputFileAttempts
      "report" "/ws/out" "S" = .ok "report_3" ∧
    generateUniqueOutputName (fun _ => true) defaultMaxOutputFileAttempts
      "report" "/ws/out" "S" =
      .error ("Cannot find unique output name for step 'S' after " ++
        toString defaultMaxOutputFileAttempts ++ " attempts") ∧
    deconflictStep (fun _ => true) defaultMaxOutputFileAttempts [] noEnv 0
      (.obj c8Step) = .obj c8Step ∧
    (match compileWorkflow trivialImpls noEnv (some c8Probe2) c8Workflow with
      | .ok wf => wf.steps.map (fun s => Json.lookupKey s.params "output_file")
      | .error _ => []) = [some (.str "report_3")] :=
  ⟨output_deconflict_least_rename.1 c8Probe2 defaultMaxOutputFileAttempts 3
      "report" "/ws/out" "S" (by decide) (by decide) (by decide) (by decide),
   output_deconflict_least_rename.2.1 (fun _ => true) defaultMaxOutputFileAttempts
      "report" "/ws/out" "S" (fun j hj1 hj2 => rfl),
   output_deconflict_least_rename.2.2.1 (fun _ => true) defaultMaxOutputFileAttempts
      [] noEnv 0 c8Step "S"
      "Cannot find unique output name for step 'S' after 100 attempts"
      rfl rfl rfl,
   output_deconflict_least_rename.2.2.2 trivialImpls noEnv⟩

end Bvbrc
